import Mathlib

set_option autoImplicit false

/-!
Verification of the book-analytics metadata/enrichment core.

The definitions below are a shallow embedding of the TypeScript sources:
`src/models/BookTypes.ts` (data model), the `BookMetadataService`
(book repository and completion tracking), the `AIEnrichmentService`
(JSON extraction from AI responses), and the `BookEnrichmentOrchestrator`
(shared enrichment cache, queue and retry policy).

Browser `localStorage` is modelled as explicit state records; wall-clock
reads (`new Date().toISOString()`, `Date.now()`) are modelled as explicit
parameters.  JavaScript string-keyed objects are modelled as association
lists, JavaScript truthiness of possibly-absent strings by `Option String`
together with `jsOrStr` below.
-/

/-- `Author` from BookTypes.ts; only `id` and `name` are required. -/
structure Author where
  id : String
  name : String
  birth : Option String := none
  death : Option String := none
  nationality : Option String := none
  otherBooks : Option (List String) := none
  primaryGenres : Option (List String) := none
  roles : Option (List String) := none
  deriving DecidableEq

/-- `Theme` from BookTypes.ts. -/
structure Theme where
  name : String
  relevance : Nat
  userNotes : Option String := none
  deriving DecidableEq

/-- `Location` from BookTypes.ts (settings of a book). -/
structure Location where
  name : String
  type : String
  realWorld : Bool
  coordinates : Option (Int × Int) := none
  importance : Nat
  description : Option String := none
  deriving DecidableEq

/-- demographics of a `Character` in BookTypes.ts. -/
structure Demographics where
  gender : Option String := none
  age : Option String := none
  background : Option String := none
  occupation : Option String := none
  deriving DecidableEq

/-- `Character` from BookTypes.ts. -/
structure Character where
  name : String
  role : String
  archetype : Option String := none
  demographics : Option Demographics := none
  personalityTraits : Option (List String) := none
  development : Option String := none
  notes : Option String := none
  deriving DecidableEq

/-- `ReadingSession` from BookTypes.ts. -/
structure ReadingSession where
  date : String
  startTime : Option String := none
  endTime : Option String := none
  pagesRead : Nat
  location : Option String := none
  medium : Option String := none
  mood : Option String := none
  distractions : Option Nat := none
  notes : Option String := none
  deriving DecidableEq

/-- the annotation record from BookTypes.ts. -/
structure Annotation where
  page : Nat
  text : String
  note : Option String := none
  type : String
  dateAdded : String
  deriving DecidableEq

/-- `EmotionalResponse` from BookTypes.ts; the `emotions` index-signature
object is modelled as an association list. -/
structure EmotionalResponse where
  overall : String
  emotions : List (String × Nat)
  impactRating : Nat
  memorability : Nat
  resonance : Option String := none
  deriving DecidableEq

/-- `Award` from BookTypes.ts. -/
structure Award where
  name : String
  category : Option String := none
  year : Nat
  winner : Bool
  deriving DecidableEq

/-- the `narrativeStructure` record of a Book; string-literal unions are
modelled as `String`. -/
structure NarrativeStructure where
  pov : String
  tense : String
  timeline : String
  format : Option String := none
  deriving DecidableEq

/-- the `culturalContext` record of a Book. -/
structure CulturalContext where
  representation : List String
  diversityElements : List String
  sensitivity : Option String := none
  deriving DecidableEq

/-- the `complexity` record of a Book (all four scores optional). -/
structure Complexity where
  readability : Option Nat := none
  vocabulary : Option Nat := none
  conceptual : Option Nat := none
  structural : Option Nat := none
  deriving DecidableEq

/-- the `series` record of a Book. -/
structure Series where
  name : String
  position : Nat
  deriving DecidableEq

/-- `BookAIEnrichment` from BookTypes.ts: the AI-derived enrichment
envelope; only the three provenance fields are required. -/
structure BookAIEnrichment where
  themes : Option (List String) := none
  mood : Option String := none
  narrativeStyle : Option String := none
  pacing : Option String := none
  perspective : Option String := none
  timeline : Option String := none
  targetAudience : Option String := none
  complexity : Option String := none
  similarBooks : Option (List String) := none
  culturalSignificance : Option String := none
  historicalContext : Option String := none
  aiAnalysis : Option String := none
  enrichmentDate : String
  enrichmentSource : String
  version : String
  deriving DecidableEq

/-- `Book` from BookTypes.ts, with every field of the interface.
String-literal union types (`format`, `audience`, `readingStatus`, …) are
modelled as `String`; optional fields as `Option`. -/
structure Book where
  id : String
  isbn : String
  googleBooksId : Option String := none
  title : String
  subtitle : Option String := none
  originalTitle : Option String := none
  authors : List Author
  publisher : String
  publishedDate : String
  edition : Option String := none
  language : String
  translatedFrom : Option String := none
  translator : Option String := none
  pageCount : Nat
  format : String
  series : Option Series := none
  genres : List String
  subgenres : List String
  subjects : List String
  contentTags : List String
  audience : String
  fiction : Bool
  narrativeStructure : NarrativeStructure
  themes : List Theme
  locations : List Location
  historicalPeriod : Option (List String) := none
  characters : List Character
  userRating : Nat
  readingStatus : String
  dateAdded : String
  startDate : Option String := none
  finishDate : Option String := none
  abandonedReason : Option String := none
  isFavorite : Bool
  isReread : Bool
  readCount : Nat
  readingSessions : List ReadingSession
  annotations : List Annotation
  userNotes : String
  userTags : List String
  emotionalResponse : EmotionalResponse
  awards : List Award
  culturalContext : CulturalContext
  recommendedBy : Option String := none
  amazonRating : Option Nat := none
  goodreadsRating : Option Nat := none
  averageRating : Option Nat := none
  nytBestseller : Option Bool := none
  complexity : Complexity
  enrichedData : Option BookAIEnrichment := none
  coverImage : Option String := none
  description : String
  lastModified : String
  deriving DecidableEq

/-- `BookMetadataCompletionStatus` from BookTypes.ts: one record per book
id, eight per-section flags. -/
structure BookMetadataCompletionStatus where
  bookId : String
  basicInfoComplete : Bool
  publicationDetailsComplete : Bool
  contentClassificationComplete : Bool
  narrativeElementsComplete : Bool
  contentAnalysisComplete : Bool
  readingExperienceComplete : Bool
  culturalContextComplete : Bool
  complexityAnalysisComplete : Bool
  deriving DecidableEq

/-- The `BookMetadataService` persistent state: the `enhanced_books`
collection and the `metadata_completion_status` list, both stored in
localStorage as JSON arrays. -/
structure RepoState where
  books : List Book
  statuses : List BookMetadataCompletionStatus
  deriving DecidableEq

/-- `getAllBooks` of BookMetadataService. -/
def getAllBooks (st : RepoState) : List Book := st.books

/-- `Array.prototype.find` specialized to a book id: first book in the
list with the given id. -/
def findBook : List Book → String → Option Book
  | [], _ => none
  | b :: rest, id => if b.id == id then some b else findBook rest id

/-- `Array.prototype.find` specialized to a status bookId. -/
def findStatus : List BookMetadataCompletionStatus → String →
    Option BookMetadataCompletionStatus
  | [], _ => none
  | s :: rest, id => if s.bookId == id then some s else findStatus rest id

/-- `getBookById`: first book in the stored collection with the given id
(`books.find(book => book.id === id) || null`). -/
def getBookById (st : RepoState) (id : String) : Option Book :=
  findBook st.books id

/-- The status record pushed by `initializeMetadataStatus`: basic info is
complete on creation, all other sections are not. -/
def initialStatus (bookId : String) : BookMetadataCompletionStatus where
  bookId := bookId
  basicInfoComplete := true
  publicationDetailsComplete := false
  contentClassificationComplete := false
  narrativeElementsComplete := false
  contentAnalysisComplete := false
  readingExperienceComplete := false
  culturalContextComplete := false
  complexityAnalysisComplete := false

/-- `initializeMetadataStatus` of BookMetadataService: appends a fresh
status record for the book id. -/
def initMetadataStatus (st : RepoState) (bookId : String) : RepoState :=
  {st with statuses := st.statuses ++ [initialStatus bookId]}

/-- replace the first book in the list whose `id` matches, as
`books[existingIndex] = updatedBook` does after `findIndex`. -/
def replaceFirstBook : List Book → Book → List Book
  | [], _ => []
  | b :: rest, nb => if b.id == nb.id then nb :: rest else b :: replaceFirstBook rest nb

/-- `saveBook` of BookMetadataService: rewrites `lastModified`, upserts by
`id` (replace the first match, else push), and initializes the metadata
completion status for a new id.  Returns the updated state and the saved
book. -/
def saveBook (st : RepoState) (book : Book) (now : String) : RepoState × Book :=
  let updatedBook := {book with lastModified := now}
  if st.books.any (fun b => b.id == book.id) then
    ({st with books := replaceFirstBook st.books updatedBook}, updatedBook)
  else
    ({books := st.books ++ [updatedBook],
      statuses := st.statuses ++ [initialStatus book.id]}, updatedBook)

/-- `getMetadataStatus` of BookMetadataService. -/
def getMetadataStatus (st : RepoState) (bookId : String) :
    Option BookMetadataCompletionStatus :=
  findStatus st.statuses bookId

/-- replace the first status record whose `bookId` matches (no change when
none does, as the service only writes at a found index). -/
def replaceFirstStatus : List BookMetadataCompletionStatus →
    BookMetadataCompletionStatus → List BookMetadataCompletionStatus
  | [], _ => []
  | s :: rest, ns =>
      if s.bookId == ns.bookId then ns :: rest else s :: replaceFirstStatus rest ns

/-- `updateMetadataStatus` of BookMetadataService. -/
def updateMetadataStatus (st : RepoState) (status : BookMetadataCompletionStatus) :
    RepoState :=
  {st with statuses := replaceFirstStatus st.statuses status}

/-- `deleteBook` of BookMetadataService: filters the book out of the
collection; when something was removed, also filters its completion-status
record and reports `true`; otherwise reports `false` without a write. -/
def deleteBook (st : RepoState) (id : String) : RepoState × Bool :=
  let filtered := st.books.filter (fun b => b.id != id)
  if filtered.length ≠ st.books.length then
    ({books := filtered, statuses := st.statuses.filter (fun s => s.bookId != id)}, true)
  else
    (st, false)

/-- number of the eight section flags of a status record that are true
(`Object.entries(status).filter(([k, v]) => k !== 'bookId' && v === true)`). -/
def countTrueFlags (s : BookMetadataCompletionStatus) : Nat :=
  s.basicInfoComplete.toNat + s.publicationDetailsComplete.toNat +
  s.contentClassificationComplete.toNat + s.narrativeElementsComplete.toNat +
  s.contentAnalysisComplete.toNat + s.readingExperienceComplete.toNat +
  s.culturalContextComplete.toNat + s.complexityAnalysisComplete.toNat

/-- JavaScript `Math.round (num / den)` for nonnegative arguments
(round half up). -/
def mathRound (num den : Nat) : Nat := (2 * num + den) / (2 * den)

/-- `calculateMetadataCompletionPercentage`: 0 without a status record,
otherwise `Math.round((completedSections / 8) * 100)`. -/
def completionPercentage (st : RepoState) (bookId : String) : Nat :=
  match getMetadataStatus st bookId with
  | none => 0
  | some s => mathRound (countTrueFlags s * 100) 8

/-- a concrete empty repository state, used by witnesses. -/
def emptyRepo : RepoState := {books := [], statuses := []}

-- Basic lemmas about the repository lists.

theorem findStatus_append_some (l₁ l₂ : List BookMetadataCompletionStatus)
    (q : String) (s : BookMetadataCompletionStatus)
    (h : findStatus l₁ q = some s) : findStatus (l₁ ++ l₂) q = some s := by
  induction l₁ with
  | nil => simp [findStatus] at h
  | cons a rest ih =>
      by_cases ha : (a.bookId == q) = true
      · simpa [findStatus, ha] using h
      · simp only [findStatus, ha] at h
        simpa [findStatus, ha] using ih h

theorem findStatus_append_none (l₁ l₂ : List BookMetadataCompletionStatus)
    (q : String) (h : findStatus l₁ q = none) :
    findStatus (l₁ ++ l₂) q = findStatus l₂ q := by
  induction l₁ with
  | nil => simp [findStatus]
  | cons a rest ih =>
      by_cases ha : (a.bookId == q) = true
      · simp [findStatus, ha] at h
      · simp only [findStatus, ha] at h
        simpa [findStatus, ha] using ih h

theorem findStatus_some_bookId (l : List BookMetadataCompletionStatus)
    (q : String) (s : BookMetadataCompletionStatus)
    (h : findStatus l q = some s) : s.bookId = q := by
  induction l with
  | nil => simp [findStatus] at h
  | cons a rest ih =>
      by_cases ha : (a.bookId == q) = true
      · simp only [findStatus, ha, if_pos, Option.some.injEq] at h
        subst h
        simpa using ha
      · simp only [findStatus, ha] at h
        exact ih h

theorem findBook_some_id (l : List Book) (q : String) (b : Book)
    (h : findBook l q = some b) : b.id = q := by
  induction l with
  | nil => simp [findBook] at h
  | cons a rest ih =>
      by_cases ha : (a.id == q) = true
      · simp only [findBook, ha, if_pos, Option.some.injEq] at h
        subst h
        simpa using ha
      · simp only [findBook, ha] at h
        exact ih h

theorem findBook_mem (l : List Book) (q : String) (b : Book)
    (h : findBook l q = some b) : b ∈ l := by
  induction l with
  | nil => simp [findBook] at h
  | cons a rest ih =>
      by_cases ha : (a.id == q) = true
      · simp only [findBook, ha, if_pos, Option.some.injEq] at h
        subst h
        exact List.mem_cons_self a rest
      · simp only [findBook, ha] at h
        exact List.mem_cons_of_mem a (ih h)

theorem findBook_filter_ne (l : List Book) (id : String) :
    findBook (l.filter (fun b => b.id != id)) id = none := by
  induction l with
  | nil => rfl
  | cons a rest ih =>
      by_cases ha : (a.id != id) = true
      · have ha' : (a.id == id) = false := by
          simpa [bne] using ha
        simpa [List.filter, ha, findBook, ha'] using ih
      · simpa [List.filter, ha] using ih

theorem findStatus_filter_ne (l : List BookMetadataCompletionStatus) (id : String) :
    findStatus (l.filter (fun s => s.bookId != id)) id = none := by
  induction l with
  | nil => rfl
  | cons a rest ih =>
      by_cases ha : (a.bookId != id) = true
      · have ha' : (a.bookId == id) = false := by
          simpa [bne] using ha
        simpa [List.filter, ha, findStatus, ha'] using ih
      · simpa [List.filter, ha] using ih

/-- C5: `completionPercentage(id)` is 0 when no completion-status record
exists for `id`; with a record it is the number of true section flags out
of 8, times 100, rounded to the nearest integer (in closed form
`(25·c + 1) / 2`); and for a freshly initialized record (basic info true,
the other seven flags false) it is 13. -/
theorem C5_completionPercentage (st : RepoState) (id : String) :
    (getMetadataStatus st id = none → completionPercentage st id = 0) ∧
    (∀ s, getMetadataStatus st id = some s →
        completionPercentage st id = mathRound (countTrueFlags s * 100) 8 ∧
        completionPercentage st id = (25 * countTrueFlags s + 1) / 2) ∧
    (getMetadataStatus st id = none →
        completionPercentage (initMetadataStatus st id) id = 13) := by
  refine ⟨?_, ?_, ?_⟩
  · intro h
    simp [completionPercentage, h]
  · intro s h
    constructor
    · simp [completionPercentage, h]
    · simp only [completionPercentage, h, mathRound]
      omega
  · intro h
    have hfind : findStatus (initMetadataStatus st id).statuses id =
        some (initialStatus id) := by
      unfold initMetadataStatus
      simp only []
      rw [findStatus_append_none _ _ _ h]
      simp [findStatus, initialStatus]
    simp only [completionPercentage, getMetadataStatus, hfind]
    simp [countTrueFlags, initialStatus, mathRound]

/-- C5 witness at a concrete state. -/
theorem C5_completionPercentage_witness :
    completionPercentage emptyRepo "b1" = 0 ∧
    completionPercentage (initMetadataStatus emptyRepo "b1") "b1" = 13 := by
  have h := C5_completionPercentage emptyRepo "b1"
  exact ⟨h.1 (by decide), h.2.2 (by decide)⟩

/-- C8: deleting an id that is present in the collection returns `true`
and afterwards neither `getBookById` nor `getMetadataStatus` finds the id
(deletion cascades to the completion-status record); deleting an absent id
returns `false` and changes nothing. -/
theorem C8_delete_cascades (st : RepoState) (id : String) :
    ((∃ b, b ∈ st.books ∧ b.id = id) →
        (deleteBook st id).2 = true ∧
        getBookById (deleteBook st id).1 id = none ∧
        getMetadataStatus (deleteBook st id).1 id = none) ∧
    ((∀ b ∈ st.books, b.id ≠ id) →
        (deleteBook st id).2 = false ∧ (deleteBook st id).1 = st) := by
  constructor
  · rintro ⟨b, hb, hid⟩
    have hlt : (st.books.filter (fun b => b.id != id)).length < st.books.length := by
      apply List.length_filter_lt_length_iff_exists.mpr
      exact ⟨b, hb, by simp [hid]⟩
    have hne : (st.books.filter (fun b => b.id != id)).length ≠ st.books.length :=
      Nat.ne_of_lt hlt
    have hd : deleteBook st id =
        ({books := st.books.filter (fun b => b.id != id),
          statuses := st.statuses.filter (fun s => s.bookId != id)}, true) := by
      simp [deleteBook, hne]
    refine ⟨?_, ?_, ?_⟩
    · rw [hd]
    · rw [hd]
      exact findBook_filter_ne st.books id
    · rw [hd]
      exact findStatus_filter_ne st.statuses id
  · intro h
    have heq : st.books.filter (fun b => b.id != id) = st.books := by
      apply List.filter_eq_self.mpr
      intro b hb
      simpa using h b hb
    constructor <;> simp [deleteBook, heq]

/-- C8 witness: a one-book state. -/
def witnessBook : Book where
  id := "b1"
  isbn := "9780000000001"
  title := "Test Book"
  authors := [{id := "author-a-author-1", name := "A. Author"}]
  publisher := "Unknown Publisher"
  publishedDate := "2024-01-01"
  language := "en"
  pageCount := 0
  format := "paperback"
  genres := []
  subgenres := []
  subjects := []
  contentTags := []
  audience := "adult"
  fiction := true
  narrativeStructure := {pov := "third-person-limited", tense := "past", timeline := "linear"}
  themes := []
  locations := []
  characters := []
  userRating := 0
  readingStatus := "to-read"
  dateAdded := "2024-01-01T00:00:00.000Z"
  isFavorite := false
  isReread := false
  readCount := 0
  readingSessions := []
  annotations := []
  userNotes := ""
  userTags := []
  emotionalResponse := {overall := "neutral", emotions := [], impactRating := 0, memorability := 0}
  awards := []
  culturalContext := {representation := [], diversityElements := []}
  complexity := {}
  description := ""
  lastModified := "2024-01-01T00:00:00.000Z"

/-- C8 witness: concrete present and absent ids. -/
theorem C8_delete_cascades_witness :
    ((deleteBook {books := [witnessBook], statuses := [initialStatus "b1"]} "b1").2 = true ∧
      getBookById (deleteBook {books := [witnessBook], statuses := [initialStatus "b1"]} "b1").1 "b1" = none ∧
      getMetadataStatus (deleteBook {books := [witnessBook], statuses := [initialStatus "b1"]} "b1").1 "b1" = none) ∧
    (deleteBook {books := [witnessBook], statuses := [initialStatus "b1"]} "b2").2 = false := by
  constructor
  · exact (C8_delete_cascades {books := [witnessBook], statuses := [initialStatus "b1"]} "b1").1
      ⟨witnessBook, by simp, by decide⟩
  · exact ((C8_delete_cascades {books := [witnessBook], statuses := [initialStatus "b1"]} "b2").2
      (by intro b hb; simp at hb; subst hb; decide)).1

/-- The keys of `Book` (`keyof Book` in updateBookSection's signature). -/
inductive BookField where
  | id | isbn | googleBooksId | title | subtitle | originalTitle | authors
  | publisher | publishedDate | edition | language | translatedFrom | translator
  | pageCount | format | series | genres | subgenres | subjects | contentTags
  | audience | fiction | narrativeStructure | themes | locations
  | historicalPeriod | characters | userRating | readingStatus | dateAdded
  | startDate | finishDate | abandonedReason | isFavorite | isReread | readCount
  | readingSessions | annotations | userNotes | userTags | emotionalResponse
  | awards | culturalContext | recommendedBy | amazonRating | goodreadsRating
  | averageRating | nytBestseller | complexity | enrichedData | coverImage
  | description | lastModified
  deriving DecidableEq

/-- A field value of a `Book`, one carrier per field type.  Used to read a
book field uniformly. -/
inductive FieldVal where
  | vs (v : String)
  | vos (v : Option String)
  | vls (v : List String)
  | vols (v : Option (List String))
  | vn (v : Nat)
  | von (v : Option Nat)
  | vb (v : Bool)
  | vob (v : Option Bool)
  | vauthors (v : List Author)
  | vseries (v : Option Series)
  | vnarr (v : NarrativeStructure)
  | vthemes (v : List Theme)
  | vlocs (v : List Location)
  | vchars (v : List Character)
  | vsessions (v : List ReadingSession)
  | vanns (v : List Annotation)
  | vemo (v : EmotionalResponse)
  | vawards (v : List Award)
  | vcultural (v : CulturalContext)
  | vcomplex (v : Complexity)
  | venrich (v : Option BookAIEnrichment)
  deriving DecidableEq

/-- uniform reader of a named field of a `Book`. -/
def readField (b : Book) : BookField → FieldVal
  | .id => .vs b.id
  | .isbn => .vs b.isbn
  | .googleBooksId => .vos b.googleBooksId
  | .title => .vs b.title
  | .subtitle => .vos b.subtitle
  | .originalTitle => .vos b.originalTitle
  | .authors => .vauthors b.authors
  | .publisher => .vs b.publisher
  | .publishedDate => .vs b.publishedDate
  | .edition => .vos b.edition
  | .language => .vs b.language
  | .translatedFrom => .vos b.translatedFrom
  | .translator => .vos b.translator
  | .pageCount => .vn b.pageCount
  | .format => .vs b.format
  | .series => .vseries b.series
  | .genres => .vls b.genres
  | .subgenres => .vls b.subgenres
  | .subjects => .vls b.subjects
  | .contentTags => .vls b.contentTags
  | .audience => .vs b.audience
  | .fiction => .vb b.fiction
  | .narrativeStructure => .vnarr b.narrativeStructure
  | .themes => .vthemes b.themes
  | .locations => .vlocs b.locations
  | .historicalPeriod => .vols b.historicalPeriod
  | .characters => .vchars b.characters
  | .userRating => .vn b.userRating
  | .readingStatus => .vs b.readingStatus
  | .dateAdded => .vs b.dateAdded
  | .startDate => .vos b.startDate
  | .finishDate => .vos b.finishDate
  | .abandonedReason => .vos b.abandonedReason
  | .isFavorite => .vb b.isFavorite
  | .isReread => .vb b.isReread
  | .readCount => .vn b.readCount
  | .readingSessions => .vsessions b.readingSessions
  | .annotations => .vanns b.annotations
  | .userNotes => .vs b.userNotes
  | .userTags => .vls b.userTags
  | .emotionalResponse => .vemo b.emotionalResponse
  | .awards => .vawards b.awards
  | .culturalContext => .vcultural b.culturalContext
  | .recommendedBy => .vos b.recommendedBy
  | .amazonRating => .von b.amazonRating
  | .goodreadsRating => .von b.goodreadsRating
  | .averageRating => .von b.averageRating
  | .nytBestseller => .vob b.nytBestseller
  | .complexity => .vcomplex b.complexity
  | .enrichedData => .venrich b.enrichedData
  | .coverImage => .vos b.coverImage
  | .description => .vs b.description
  | .lastModified => .vs b.lastModified

/-- A single-field update passed to `updateBookSection`
(`{...book, [section]: data}`): the named field together with the new
value. -/
inductive SectionUpdate where
  | id (v : String)
  | isbn (v : String)
  | googleBooksId (v : Option String)
  | title (v : String)
  | subtitle (v : Option String)
  | originalTitle (v : Option String)
  | authors (v : List Author)
  | publisher (v : String)
  | publishedDate (v : String)
  | edition (v : Option String)
  | language (v : String)
  | translatedFrom (v : Option String)
  | translator (v : Option String)
  | pageCount (v : Nat)
  | format (v : String)
  | series (v : Option Series)
  | genres (v : List String)
  | subgenres (v : List String)
  | subjects (v : List String)
  | contentTags (v : List String)
  | audience (v : String)
  | fiction (v : Bool)
  | narrativeStructure (v : NarrativeStructure)
  | themes (v : List Theme)
  | locations (v : List Location)
  | historicalPeriod (v : Option (List String))
  | characters (v : List Character)
  | userRating (v : Nat)
  | readingStatus (v : String)
  | dateAdded (v : String)
  | startDate (v : Option String)
  | finishDate (v : Option String)
  | abandonedReason (v : Option String)
  | isFavorite (v : Bool)
  | isReread (v : Bool)
  | readCount (v : Nat)
  | readingSessions (v : List ReadingSession)
  | annotations (v : List Annotation)
  | userNotes (v : String)
  | userTags (v : List String)
  | emotionalResponse (v : EmotionalResponse)
  | awards (v : List Award)
  | culturalContext (v : CulturalContext)
  | recommendedBy (v : Option String)
  | amazonRating (v : Option Nat)
  | goodreadsRating (v : Option Nat)
  | averageRating (v : Option Nat)
  | nytBestseller (v : Option Bool)
  | complexity (v : Complexity)
  | enrichedData (v : Option BookAIEnrichment)
  | coverImage (v : Option String)
  | description (v : String)
  | lastModified (v : String)

/-- the field named by a `SectionUpdate`. -/
def fieldOf : SectionUpdate → BookField
  | .id _ => .id
  | .isbn _ => .isbn
  | .googleBooksId _ => .googleBooksId
  | .title _ => .title
  | .subtitle _ => .subtitle
  | .originalTitle _ => .originalTitle
  | .authors _ => .authors
  | .publisher _ => .publisher
  | .publishedDate _ => .publishedDate
  | .edition _ => .edition
  | .language _ => .language
  | .translatedFrom _ => .translatedFrom
  | .translator _ => .translator
  | .pageCount _ => .pageCount
  | .format _ => .format
  | .series _ => .series
  | .genres _ => .genres
  | .subgenres _ => .subgenres
  | .subjects _ => .subjects
  | .contentTags _ => .contentTags
  | .audience _ => .audience
  | .fiction _ => .fiction
  | .narrativeStructure _ => .narrativeStructure
  | .themes _ => .themes
  | .locations _ => .locations
  | .historicalPeriod _ => .historicalPeriod
  | .characters _ => .characters
  | .userRating _ => .userRating
  | .readingStatus _ => .readingStatus
  | .dateAdded _ => .dateAdded
  | .startDate _ => .startDate
  | .finishDate _ => .finishDate
  | .abandonedReason _ => .abandonedReason
  | .isFavorite _ => .isFavorite
  | .isReread _ => .isReread
  | .readCount _ => .readCount
  | .readingSessions _ => .readingSessions
  | .annotations _ => .annotations
  | .userNotes _ => .userNotes
  | .userTags _ => .userTags
  | .emotionalResponse _ => .emotionalResponse
  | .awards _ => .awards
  | .culturalContext _ => .culturalContext
  | .recommendedBy _ => .recommendedBy
  | .amazonRating _ => .amazonRating
  | .goodreadsRating _ => .goodreadsRating
  | .averageRating _ => .averageRating
  | .nytBestseller _ => .nytBestseller
  | .complexity _ => .complexity
  | .enrichedData _ => .enrichedData
  | .coverImage _ => .coverImage
  | .description _ => .description
  | .lastModified _ => .lastModified

/-- the value carried by a `SectionUpdate`. -/
def valOf : SectionUpdate → FieldVal
  | .id v => .vs v
  | .isbn v => .vs v
  | .googleBooksId v => .vos v
  | .title v => .vs v
  | .subtitle v => .vos v
  | .originalTitle v => .vos v
  | .authors v => .vauthors v
  | .publisher v => .vs v
  | .publishedDate v => .vs v
  | .edition v => .vos v
  | .language v => .vs v
  | .translatedFrom v => .vos v
  | .translator v => .vos v
  | .pageCount v => .vn v
  | .format v => .vs v
  | .series v => .vseries v
  | .genres v => .vls v
  | .subgenres v => .vls v
  | .subjects v => .vls v
  | .contentTags v => .vls v
  | .audience v => .vs v
  | .fiction v => .vb v
  | .narrativeStructure v => .vnarr v
  | .themes v => .vthemes v
  | .locations v => .vlocs v
  | .historicalPeriod v => .vols v
  | .characters v => .vchars v
  | .userRating v => .vn v
  | .readingStatus v => .vs v
  | .dateAdded v => .vs v
  | .startDate v => .vos v
  | .finishDate v => .vos v
  | .abandonedReason v => .vos v
  | .isFavorite v => .vb v
  | .isReread v => .vb v
  | .readCount v => .vn v
  | .readingSessions v => .vsessions v
  | .annotations v => .vanns v
  | .userNotes v => .vs v
  | .userTags v => .vls v
  | .emotionalResponse v => .vemo v
  | .awards v => .vawards v
  | .culturalContext v => .vcultural v
  | .recommendedBy v => .vos v
  | .amazonRating v => .von v
  | .goodreadsRating v => .von v
  | .averageRating v => .von v
  | .nytBestseller v => .vob v
  | .complexity v => .vcomplex v
  | .enrichedData v => .venrich v
  | .coverImage v => .vos v
  | .description v => .vs v
  | .lastModified v => .vs v

/-- the computed-key write `{...book, [section]: data}`. -/
def applyFieldUpdate (b : Book) : SectionUpdate → Book
  | .id v => {b with id := v}
  | .isbn v => {b with isbn := v}
  | .googleBooksId v => {b with googleBooksId := v}
  | .title v => {b with title := v}
  | .subtitle v => {b with subtitle := v}
  | .originalTitle v => {b with originalTitle := v}
  | .authors v => {b with authors := v}
  | .publisher v => {b with publisher := v}
  | .publishedDate v => {b with publishedDate := v}
  | .edition v => {b with edition := v}
  | .language v => {b with language := v}
  | .translatedFrom v => {b with translatedFrom := v}
  | .translator v => {b with translator := v}
  | .pageCount v => {b with pageCount := v}
  | .format v => {b with format := v}
  | .series v => {b with series := v}
  | .genres v => {b with genres := v}
  | .subgenres v => {b with subgenres := v}
  | .subjects v => {b with subjects := v}
  | .contentTags v => {b with contentTags := v}
  | .audience v => {b with audience := v}
  | .fiction v => {b with fiction := v}
  | .narrativeStructure v => {b with narrativeStructure := v}
  | .themes v => {b with themes := v}
  | .locations v => {b with locations := v}
  | .historicalPeriod v => {b with historicalPeriod := v}
  | .characters v => {b with characters := v}
  | .userRating v => {b with userRating := v}
  | .readingStatus v => {b with readingStatus := v}
  | .dateAdded v => {b with dateAdded := v}
  | .startDate v => {b with startDate := v}
  | .finishDate v => {b with finishDate := v}
  | .abandonedReason v => {b with abandonedReason := v}
  | .isFavorite v => {b with isFavorite := v}
  | .isReread v => {b with isReread := v}
  | .readCount v => {b with readCount := v}
  | .readingSessions v => {b with readingSessions := v}
  | .annotations v => {b with annotations := v}
  | .userNotes v => {b with userNotes := v}
  | .userTags v => {b with userTags := v}
  | .emotionalResponse v => {b with emotionalResponse := v}
  | .awards v => {b with awards := v}
  | .culturalContext v => {b with culturalContext := v}
  | .recommendedBy v => {b with recommendedBy := v}
  | .amazonRating v => {b with amazonRating := v}
  | .goodreadsRating v => {b with goodreadsRating := v}
  | .averageRating v => {b with averageRating := v}
  | .nytBestseller v => {b with nytBestseller := v}
  | .complexity v => {b with complexity := v}
  | .enrichedData v => {b with enrichedData := v}
  | .coverImage v => {b with coverImage := v}
  | .description v => {b with description := v}
  | .lastModified v => {b with lastModified := v}

set_option maxHeartbeats 3200000 in
/-- Reading any field of `{...book, [section]: data}`: the named field
yields the written value, every other field is unchanged. -/
theorem readField_applyFieldUpdate (b : Book) (u : SectionUpdate) (g : BookField) :
    readField (applyFieldUpdate b u) g =
      if g = fieldOf u then valOf u else readField b g := by
  cases u <;> cases g <;> rfl

/-- one of the eight sections of the completion-status record. -/
inductive StatusFlag where
  | basicInfo | publicationDetails | contentClassification | narrativeElements
  | contentAnalysis | readingExperience | culturalContext | complexityAnalysis
  deriving DecidableEq

/-- the fixed `sectionToStatusField` lookup table of
`updateMetadataCompletionForSection`. -/
def sectionToStatusField : BookField → Option StatusFlag
  | .authors => some .basicInfo
  | .title => some .basicInfo
  | .subtitle => some .basicInfo
  | .publisher => some .publicationDetails
  | .publishedDate => some .publicationDetails
  | .edition => some .publicationDetails
  | .language => some .publicationDetails
  | .translator => some .publicationDetails
  | .pageCount => some .publicationDetails
  | .format => some .publicationDetails
  | .series => some .publicationDetails
  | .genres => some .contentClassification
  | .subgenres => some .contentClassification
  | .subjects => some .contentClassification
  | .contentTags => some .contentClassification
  | .audience => some .contentClassification
  | .fiction => some .contentClassification
  | .narrativeStructure => some .narrativeElements
  | .themes => some .contentAnalysis
  | .locations => some .contentAnalysis
  | .historicalPeriod => some .contentAnalysis
  | .characters => some .contentAnalysis
  | .readingSessions => some .readingExperience
  | .annotations => some .readingExperience
  | .userNotes => some .readingExperience
  | .userTags => some .readingExperience
  | .emotionalResponse => some .readingExperience
  | .awards => some .culturalContext
  | .culturalContext => some .culturalContext
  | .complexity => some .complexityAnalysis
  | _ => none

/-- `{...status, [statusField]: true}`. -/
def setFlag (s : BookMetadataCompletionStatus) : StatusFlag →
    BookMetadataCompletionStatus
  | .basicInfo => {s with basicInfoComplete := true}
  | .publicationDetails => {s with publicationDetailsComplete := true}
  | .contentClassification => {s with contentClassificationComplete := true}
  | .narrativeElements => {s with narrativeElementsComplete := true}
  | .contentAnalysis => {s with contentAnalysisComplete := true}
  | .readingExperience => {s with readingExperienceComplete := true}
  | .culturalContext => {s with culturalContextComplete := true}
  | .complexityAnalysis => {s with complexityAnalysisComplete := true}

/-- `updateMetadataCompletionForSection` of BookMetadataService: marks the
status flag that the lookup table assigns to the updated field; a field
without a table entry, or a book without a status record, changes
nothing. -/
def updateCompletionForSection (st : RepoState) (bookId : String)
    (f : BookField) : RepoState :=
  match getMetadataStatus st bookId with
  | none => st
  | some status =>
      match sectionToStatusField f with
      | none => st
      | some flag => updateMetadataStatus st (setFlag status flag)

/-- `updateBookSection` of BookMetadataService: overwrites the named field
of the book, bumps `lastModified`, saves the book, and updates the
completion status for the section. -/
def updateBookSection (st : RepoState) (bookId : String) (u : SectionUpdate)
    (now : String) : RepoState × Option Book :=
  match getBookById st bookId with
  | none => (st, none)
  | some book =>
      let updatedBook := {applyFieldUpdate book u with lastModified := now}
      let st1 := (saveBook st updatedBook now).1
      let st2 := updateCompletionForSection st1 bookId (fieldOf u)
      (st2, some updatedBook)

/-- read one of the eight section flags. -/
def getFlag (s : BookMetadataCompletionStatus) : StatusFlag → Bool
  | .basicInfo => s.basicInfoComplete
  | .publicationDetails => s.publicationDetailsComplete
  | .contentClassification => s.contentClassificationComplete
  | .narrativeElements => s.narrativeElementsComplete
  | .contentAnalysis => s.contentAnalysisComplete
  | .readingExperience => s.readingExperienceComplete
  | .culturalContext => s.culturalContextComplete
  | .complexityAnalysis => s.complexityAnalysisComplete

theorem setFlag_bookId (s : BookMetadataCompletionStatus) (f : StatusFlag) :
    (setFlag s f).bookId = s.bookId := by
  cases f <;> rfl

theorem getFlag_setFlag (s : BookMetadataCompletionStatus) (f g : StatusFlag) :
    getFlag s g = true → getFlag (setFlag s f) g = true := by
  cases f <;> cases g <;> simp [setFlag, getFlag]

theorem bool_toNat_mono {b b' : Bool} (h : b = true → b' = true) :
    b.toNat ≤ b'.toNat := by
  cases b
  · simp [Bool.toNat]
  · simp [h rfl]

theorem countTrueFlags_mono {s s' : BookMetadataCompletionStatus}
    (h : ∀ f, getFlag s f = true → getFlag s' f = true) :
    countTrueFlags s ≤ countTrueFlags s' := by
  have h1 := bool_toNat_mono (h .basicInfo)
  have h2 := bool_toNat_mono (h .publicationDetails)
  have h3 := bool_toNat_mono (h .contentClassification)
  have h4 := bool_toNat_mono (h .narrativeElements)
  have h5 := bool_toNat_mono (h .contentAnalysis)
  have h6 := bool_toNat_mono (h .readingExperience)
  have h7 := bool_toNat_mono (h .culturalContext)
  have h8 := bool_toNat_mono (h .complexityAnalysis)
  simp only [getFlag] at h1 h2 h3 h4 h5 h6 h7 h8
  unfold countTrueFlags
  omega

theorem replaceFirstStatus_findStatus_self (l : List BookMetadataCompletionStatus)
    (ns s : BookMetadataCompletionStatus) (id : String) (hid : ns.bookId = id)
    (h : findStatus l id = some s) :
    findStatus (replaceFirstStatus l ns) id = some ns := by
  induction l with
  | nil => simp [findStatus] at h
  | cons a rest ih =>
      by_cases ha : (a.bookId == ns.bookId) = true
      · simp only [replaceFirstStatus, findStatus]
        rw [if_pos ha]
        simp only [findStatus]
        rw [if_pos (show (ns.bookId == id) = true by simp [hid])]
      · have ha' : (a.bookId == id) = false := by
          rw [hid] at ha
          simpa using ha
        simp only [findStatus, ha'] at h
        simp only [replaceFirstStatus, ha, if_neg, Bool.false_eq_true,
          not_false_eq_true, findStatus, ha']
        exact ih h

theorem replaceFirstStatus_findStatus_other (l : List BookMetadataCompletionStatus)
    (ns : BookMetadataCompletionStatus) (q : String) (hq : q ≠ ns.bookId) :
    findStatus (replaceFirstStatus l ns) q = findStatus l q := by
  induction l with
  | nil => rfl
  | cons a rest ih =>
      by_cases ha : (a.bookId == ns.bookId) = true
      · have hans : a.bookId = ns.bookId := by simpa using ha
        have h1 : (ns.bookId == q) = false := by
          simp
          exact fun h => hq h.symm
        have h2 : (a.bookId == q) = false := by
          rw [hans]
          exact h1
        simp [replaceFirstStatus, ha, findStatus, h1, h2]
      · by_cases hpa : (a.bookId == q) = true
        · simp [replaceFirstStatus, ha, findStatus, hpa]
        · have hpa' : (a.bookId == q) = false := by simpa using hpa
          simp only [replaceFirstStatus, ha, if_neg, Bool.false_eq_true,
            not_false_eq_true, findStatus, hpa']
          exact ih

/-- `saveBook` never removes or edits an existing completion-status
record: any record found before is found unchanged after. -/
theorem saveBook_getMetadataStatus (st : RepoState) (b : Book) (now q : String)
    (s : BookMetadataCompletionStatus) (h : getMetadataStatus st q = some s) :
    getMetadataStatus (saveBook st b now).1 q = some s := by
  unfold saveBook
  by_cases hany : st.books.any (fun x => x.id == b.id) = true
  · simpa [hany, getMetadataStatus] using h
  · simp only [hany, Bool.false_eq_true, if_neg, not_false_eq_true]
    unfold getMetadataStatus at h ⊢
    exact findStatus_append_some _ _ _ _ h

/-- A single `updateBookSection` call never unsets a section flag: the
status record of any book id evolves to one with at least the same true
flags. -/
theorem updateBookSection_status_mono (st : RepoState) (id : String)
    (u : SectionUpdate) (now q : String) (s : BookMetadataCompletionStatus)
    (hs : getMetadataStatus st q = some s) :
    ∃ s', getMetadataStatus (updateBookSection st id u now).1 q = some s' ∧
      ∀ f, getFlag s f = true → getFlag s' f = true := by
  unfold updateBookSection
  cases hfind : getBookById st id with
  | none => exact ⟨s, hs, fun f hf => hf⟩
  | some book =>
      simp only []
      have A := saveBook_getMetadataStatus st
        {applyFieldUpdate book u with lastModified := now} now q s hs
      set st1 := (saveBook st {applyFieldUpdate book u with lastModified := now} now).1
      unfold updateCompletionForSection
      cases hms : getMetadataStatus st1 id with
      | none => exact ⟨s, A, fun f hf => hf⟩
      | some status =>
          cases hsf : sectionToStatusField (fieldOf u) with
          | none => exact ⟨s, A, fun f hf => hf⟩
          | some flag =>
              have hstbid : status.bookId = id :=
                findStatus_some_bookId st1.statuses id status hms
              by_cases hq : q = id
              · subst hq
                have hss : s = status := by
                  rw [A] at hms
                  exact Option.some.inj hms
                refine ⟨setFlag status flag, ?_, ?_⟩
                · unfold updateMetadataStatus getMetadataStatus
                  exact replaceFirstStatus_findStatus_self st1.statuses
                    (setFlag status flag) status q
                    (by rw [setFlag_bookId]; exact hstbid) hms
                · intro f hf
                  exact getFlag_setFlag status flag f (hss ▸ hf)
              · refine ⟨s, ?_, fun f hf => hf⟩
                unfold updateMetadataStatus getMetadataStatus
                rw [replaceFirstStatus_findStatus_other st1.statuses (setFlag status flag) q
                  (by rw [setFlag_bookId, hstbid]; exact hq)]
                exact A

/-- A single `updateBookSection` call never decreases any book's
completion percentage. -/
theorem updateBookSection_percent_mono (st : RepoState) (id : String)
    (u : SectionUpdate) (now q : String) :
    completionPercentage st q ≤
      completionPercentage (updateBookSection st id u now).1 q := by
  cases hs : getMetadataStatus st q with
  | none =>
      simp only [completionPercentage, hs]
      exact Nat.zero_le _
  | some s =>
      obtain ⟨s', hs', hmono⟩ := updateBookSection_status_mono st id u now q s hs
      simp only [completionPercentage, hs, hs']
      have hc := countTrueFlags_mono hmono
      unfold mathRound
      omega

/-- a sequence of `updateSection` calls, each given as
(book id, field update, timestamp). -/
def applyUpdates : RepoState → List (String × SectionUpdate × String) → RepoState
  | st, [] => st
  | st, (id, u, now) :: rest => applyUpdates (updateBookSection st id u now).1 rest

/-- C2: across any sequence of `updateSection` calls, the completion
percentage of every book is monotonically non-decreasing, because a
status record only ever evolves by setting section flags from false to
true: any record present before the sequence is still present afterwards
with at least the same true flags. -/
theorem C2_completion_monotone (st : RepoState)
    (ops : List (String × SectionUpdate × String)) (q : String) :
    completionPercentage st q ≤ completionPercentage (applyUpdates st ops) q ∧
    (∀ s, getMetadataStatus st q = some s →
      ∃ s', getMetadataStatus (applyUpdates st ops) q = some s' ∧
        ∀ f, getFlag s f = true → getFlag s' f = true) := by
  induction ops generalizing st with
  | nil => exact ⟨Nat.le_refl _, fun s hs => ⟨s, hs, fun f hf => hf⟩⟩
  | cons op rest ih =>
      obtain ⟨id, u, now⟩ := op
      constructor
      · exact Nat.le_trans (updateBookSection_percent_mono st id u now q)
          (ih (updateBookSection st id u now).1).1
      · intro s hs
        obtain ⟨s1, hs1, h1⟩ := updateBookSection_status_mono st id u now q s hs
        obtain ⟨s2, hs2, h2⟩ := (ih (updateBookSection st id u now).1).2 s1 hs1
        exact ⟨s2, hs2, fun f hf => h2 f (h1 f hf)⟩

/-- a concrete one-book repository state used by witnesses: the state
right after creating `witnessBook`. -/
def repoW : RepoState := {books := [witnessBook], statuses := [initialStatus "b1"]}

/-- C2 witness: a concrete two-update sequence on the fresh one-book
state. -/
theorem C2_completion_monotone_witness :
    completionPercentage repoW "b1" ≤
      completionPercentage (applyUpdates repoW
        [("b1", SectionUpdate.genres ["Fiction"], "t1"),
         ("b1", SectionUpdate.complexity {conceptual := some 3}, "t2")]) "b1" ∧
    ∃ s', getMetadataStatus (applyUpdates repoW
        [("b1", SectionUpdate.genres ["Fiction"], "t1"),
         ("b1", SectionUpdate.complexity {conceptual := some 3}, "t2")]) "b1" = some s' ∧
      ∀ f, getFlag (initialStatus "b1") f = true → getFlag s' f = true := by
  have h := C2_completion_monotone repoW
    [("b1", SectionUpdate.genres ["Fiction"], "t1"),
     ("b1", SectionUpdate.complexity {conceptual := some 3}, "t2")] "b1"
  exact ⟨h.1, h.2 (initialStatus "b1") (by decide)⟩

theorem saveBook_statuses_found (st : RepoState) (b : Book) (now : String)
    (hany : st.books.any (fun x => x.id == b.id) = true) :
    (saveBook st b now).1.statuses = st.statuses := by
  simp [saveBook, hany]

theorem saveBook_statuses_new (st : RepoState) (b : Book) (now : String)
    (hany : ¬ st.books.any (fun x => x.id == b.id) = true) :
    (saveBook st b now).1.statuses = st.statuses ++ [initialStatus b.id] := by
  simp only [saveBook, hany, if_neg, Bool.false_eq_true, not_false_eq_true]

/-- `saveBook` leaves the completion-status lookup of an id that already
names a stored book unchanged. -/
theorem saveBook_getMetadataStatus_stable (st : RepoState) (b : Book)
    (now q : String) (bk : Book) (hbk : bk ∈ st.books) (hbkid : bk.id = q) :
    getMetadataStatus (saveBook st b now).1 q = getMetadataStatus st q := by
  by_cases hany : st.books.any (fun x => x.id == b.id) = true
  · unfold getMetadataStatus
    rw [saveBook_statuses_found st b now hany]
  · have hbq : b.id ≠ q := by
      intro hc
      apply hany
      apply List.any_eq_true.mpr
      exact ⟨bk, hbk, by simp [hbkid, hc]⟩
    unfold getMetadataStatus
    rw [saveBook_statuses_new st b now hany]
    cases hfs : findStatus st.statuses q with
    | some s => exact findStatus_append_some _ _ _ _ hfs
    | none =>
        rw [findStatus_append_none _ _ _ hfs]
        simp [findStatus, initialStatus, hbq]

/-- C6: on an existing book, `updateSection` overwrites exactly the named
field of that book (every other field of the returned book is unchanged,
except `lastModified`, which is set to the current time), and the
completion-status record of the book changes exactly by setting the flag
the fixed field→section lookup table assigns to the field — and is left
untouched when the table has no entry for the field. -/
theorem C6_updateSection_frame (st : RepoState) (bookId : String)
    (u : SectionUpdate) (now : String) (book : Book)
    (hfound : getBookById st bookId = some book) :
    ∃ b', (updateBookSection st bookId u now).2 = some b' ∧
      (∀ g : BookField, g ≠ fieldOf u → g ≠ BookField.lastModified →
          readField b' g = readField book g) ∧
      (fieldOf u ≠ BookField.lastModified → readField b' (fieldOf u) = valOf u) ∧
      b'.lastModified = now ∧
      getMetadataStatus (updateBookSection st bookId u now).1 bookId =
        (match sectionToStatusField (fieldOf u), getMetadataStatus st bookId with
         | some flag, some s => some (setFlag s flag)
         | some _, none => none
         | none, ms => ms) := by
  have hbid : book.id = bookId := findBook_some_id st.books bookId book hfound
  have hmem : book ∈ st.books := findBook_mem st.books bookId book hfound
  refine ⟨{applyFieldUpdate book u with lastModified := now}, ?_, ?_, ?_, rfl, ?_⟩
  · unfold updateBookSection
    rw [hfound]
  · intro g hg hlm
    have h1 : ({applyFieldUpdate book u with lastModified := now} : Book) =
        applyFieldUpdate (applyFieldUpdate book u) (SectionUpdate.lastModified now) := rfl
    rw [h1, readField_applyFieldUpdate, readField_applyFieldUpdate,
      show fieldOf (SectionUpdate.lastModified now) = BookField.lastModified from rfl,
      if_neg hlm, if_neg hg]
  · intro hlm
    have h1 : ({applyFieldUpdate book u with lastModified := now} : Book) =
        applyFieldUpdate (applyFieldUpdate book u) (SectionUpdate.lastModified now) := rfl
    rw [h1, readField_applyFieldUpdate, readField_applyFieldUpdate,
      show fieldOf (SectionUpdate.lastModified now) = BookField.lastModified from rfl,
      if_neg hlm, if_pos rfl]
  · unfold updateBookSection
    rw [hfound]
    simp only []
    have hst1 : getMetadataStatus
        (saveBook st {applyFieldUpdate book u with lastModified := now} now).1 bookId =
        getMetadataStatus st bookId :=
      saveBook_getMetadataStatus_stable st _ now bookId book hmem hbid
    unfold updateCompletionForSection
    rw [hst1]
    cases hms : getMetadataStatus st bookId with
    | none =>
        cases hsf : sectionToStatusField (fieldOf u) <;> simp [hst1, hms]
    | some s =>
        cases hsf : sectionToStatusField (fieldOf u) with
        | none => simp [hst1, hms]
        | some flag =>
            simp only []
            have hsb : s.bookId = bookId := by
              unfold getMetadataStatus at hms
              exact findStatus_some_bookId st.statuses bookId s hms
            unfold updateMetadataStatus getMetadataStatus
            exact replaceFirstStatus_findStatus_self _ (setFlag s flag) s bookId
              (by rw [setFlag_bookId]; exact hsb)
              (by unfold getMetadataStatus at hst1 hms; rw [hst1]; exact hms)

/-- C6 witness: `updateSection(id, "genres", ["Fiction"])` on a fresh book
sets `contentClassificationComplete` and raises the completion percentage
to 25. -/
theorem C6_updateSection_frame_witness :
    (∃ b', (updateBookSection repoW "b1" (SectionUpdate.genres ["Fiction"]) "t1").2 = some b' ∧
        readField b' BookField.genres = FieldVal.vls ["Fiction"] ∧
        readField b' BookField.title = readField witnessBook BookField.title ∧
        b'.lastModified = "t1") ∧
    getMetadataStatus (updateBookSection repoW "b1" (SectionUpdate.genres ["Fiction"]) "t1").1 "b1" =
      some (setFlag (initialStatus "b1") StatusFlag.contentClassification) ∧
    completionPercentage (updateBookSection repoW "b1" (SectionUpdate.genres ["Fiction"]) "t1").1 "b1" = 25 := by
  obtain ⟨b', h1, hframe, hnamed, hlm, hstat⟩ :=
    C6_updateSection_frame repoW "b1" (SectionUpdate.genres ["Fiction"]) "t1"
      witnessBook (by decide)
  refine ⟨⟨b', h1, ?_, ?_, hlm⟩, ?_, ?_⟩
  · exact hnamed (by decide)
  · exact hframe BookField.title (by decide) (by decide)
  · rw [hstat]
    decide
  · have h25 : completionPercentage
        (updateBookSection repoW "b1" (SectionUpdate.genres ["Fiction"]) "t1").1 "b1" =
        mathRound (countTrueFlags (setFlag (initialStatus "b1") StatusFlag.contentClassification) * 100) 8 := by
      unfold completionPercentage
      rw [hstat]
      rfl
    rw [h25]
    decide

-- Catalog Lookup Client: `convertGoogleBookToMinimalData`.

/-- one entry of `volumeInfo.industryIdentifiers`. -/
structure IndustryIdentifier where
  type : String
  identifier : String
  deriving DecidableEq

/-- `volumeInfo.imageLinks`. -/
structure ImageLinks where
  smallThumbnail : Option String := none
  thumbnail : Option String := none
  small : Option String := none
  medium : Option String := none
  large : Option String := none
  extraLarge : Option String := none
  deriving DecidableEq

/-- `GoogleBooksVolumeInfo` from BookTypes.ts (the fields the conversion
reads). -/
structure GoogleBooksVolumeInfo where
  title : String
  subtitle : Option String := none
  authors : Option (List String) := none
  publisher : Option String := none
  publishedDate : Option String := none
  description : Option String := none
  industryIdentifiers : Option (List IndustryIdentifier) := none
  pageCount : Option Nat := none
  categories : Option (List String) := none
  imageLinks : Option ImageLinks := none
  language : Option String := none
  deriving DecidableEq

/-- `GoogleBooksVolume` from BookTypes.ts. -/
structure GoogleBooksVolume where
  kind : String := "books#volume"
  id : String
  etag : String := ""
  selfLink : String := ""
  volumeInfo : GoogleBooksVolumeInfo
  deriving DecidableEq

/-- `MinimalBookData` from BookTypes.ts. -/
structure MinimalBookData where
  id : String
  title : String
  authors : List Author
  publisher : String
  publishedDate : String
  pageCount : Nat
  language : String
  description : String
  coverImage : Option String := none
  isbn : String
  deriving DecidableEq

/-- JavaScript `maybeAbsent || defaultString`: an absent or empty string
falls back to the default. -/
def jsOrStr (o : Option String) (d : String) : String :=
  match o with
  | some s => if s = "" then d else s
  | none => d

/-- `Array.prototype.find` on identifiers by `type`. -/
def findIdent : List IndustryIdentifier → String → Option IndustryIdentifier
  | [], _ => none
  | i :: rest, t => if i.type == t then some i else findIdent rest t

/-- `name.replace(/\s+/g, '-')`: each maximal run of whitespace becomes a
single hyphen (the flag records whether the previous character was
whitespace). -/
def replaceWsAux : Bool → List Char → List Char
  | _, [] => []
  | prevWs, c :: rest =>
      if c.isWhitespace then
        if prevWs then replaceWsAux true rest
        else Char.ofNat 45 :: replaceWsAux true rest
      else c :: replaceWsAux false rest

/-- the generated author id
`author-<name.replace(/\s+/g, '-').toLowerCase()>-<Date.now()>`. -/
def authorIdOf (name : String) (nowMs : Nat) : String :=
  "author-" ++ String.mk ((replaceWsAux false name.toList).map Char.toLower) ++
    "-" ++ toString nowMs

/-- `convertGoogleBookToMinimalData` of BookMetadataService.  `Date.now()`
is the explicit `nowMs` parameter; `new Date().toISOString().split('T')[0]`
is the explicit `today` parameter. -/
def convertGoogleBookToMinimalData (g : GoogleBooksVolume) (nowMs : Nat)
    (today : String) : MinimalBookData :=
  let vi := g.volumeInfo
  let isbn : String :=
    match vi.industryIdentifiers with
    | some ids =>
        if 0 < ids.length then
          match findIdent ids "ISBN_13" with
          | some isbn13 => isbn13.identifier
          | none =>
              match findIdent ids "ISBN_10" with
              | some isbn10 => isbn10.identifier
              | none => "placeholder-" ++ toString nowMs
        else "placeholder-" ++ toString nowMs
    | none => "placeholder-" ++ toString nowMs
  let authorNames : List String :=
    match vi.authors with
    | some l => l
    | none => ["Unknown Author"]
  { id := g.id
    title := vi.title
    authors := authorNames.map (fun name => {id := authorIdOf name nowMs, name := name})
    publisher := jsOrStr vi.publisher "Unknown Publisher"
    publishedDate := jsOrStr vi.publishedDate today
    pageCount := (vi.pageCount).getD 0
    language := jsOrStr vi.language "en"
    description := jsOrStr vi.description ""
    coverImage :=
      match vi.imageLinks with
      | some il =>
          match il.thumbnail with
          | some t => if t = "" then none else some t
          | none => none
      | none => none
    isbn := isbn }

/-- first identifier of the given type in the volume, if any. -/
def identLookup (g : GoogleBooksVolume) (t : String) : Option IndustryIdentifier :=
  match g.volumeInfo.industryIdentifiers with
  | some ids => findIdent ids t
  | none => none

/-- C9: the conversion prefers an ISBN_13 identifier over an ISBN_10
identifier over the generated `placeholder-<timestamp>`, and defaults a
missing publisher to "Unknown Publisher", a missing language to "en" and a
missing description to the empty string. -/
theorem C9_toMinimalBook (g : GoogleBooksVolume) (nowMs : Nat) (today : String) :
    (∀ i13, identLookup g "ISBN_13" = some i13 →
        (convertGoogleBookToMinimalData g nowMs today).isbn = i13.identifier) ∧
    (identLookup g "ISBN_13" = none → ∀ i10, identLookup g "ISBN_10" = some i10 →
        (convertGoogleBookToMinimalData g nowMs today).isbn = i10.identifier) ∧
    (identLookup g "ISBN_13" = none → identLookup g "ISBN_10" = none →
        (convertGoogleBookToMinimalData g nowMs today).isbn =
          "placeholder-" ++ toString nowMs) ∧
    (g.volumeInfo.publisher = none →
        (convertGoogleBookToMinimalData g nowMs today).publisher = "Unknown Publisher") ∧
    (g.volumeInfo.language = none →
        (convertGoogleBookToMinimalData g nowMs today).language = "en") ∧
    (g.volumeInfo.description = none →
        (convertGoogleBookToMinimalData g nowMs today).description = "") := by
  refine ⟨?_, ?_, ?_, ?_, ?_, ?_⟩
  · intro i13 h13
    cases hids : g.volumeInfo.industryIdentifiers with
    | none => simp [identLookup, hids] at h13
    | some ids =>
        simp only [identLookup, hids] at h13
        have hlen : 0 < ids.length := by
          cases ids with
          | nil => simp [findIdent] at h13
          | cons a rest => simp
        simp [convertGoogleBookToMinimalData, hids, hlen, h13]
  · intro h13 i10 h10
    cases hids : g.volumeInfo.industryIdentifiers with
    | none => simp [identLookup, hids] at h10
    | some ids =>
        simp only [identLookup, hids] at h13 h10
        have hlen : 0 < ids.length := by
          cases ids with
          | nil => simp [findIdent] at h10
          | cons a rest => simp
        simp [convertGoogleBookToMinimalData, hids, hlen, h13, h10]
  · intro h13 h10
    cases hids : g.volumeInfo.industryIdentifiers with
    | none => simp [convertGoogleBookToMinimalData, hids]
    | some ids =>
        simp only [identLookup, hids] at h13 h10
        by_cases hlen : 0 < ids.length
        · simp [convertGoogleBookToMinimalData, hids, hlen, h13, h10]
        · simp [convertGoogleBookToMinimalData, hids, hlen]
  · intro h
    simp [convertGoogleBookToMinimalData, jsOrStr, h]
  · intro h
    simp [convertGoogleBookToMinimalData, jsOrStr, h]
  · intro h
    simp [convertGoogleBookToMinimalData, jsOrStr, h]

/-- a volume with both an ISBN_13 and an ISBN_10 identifier. -/
def volBoth : GoogleBooksVolume where
  id := "abc123"
  volumeInfo :=
    { title := "Test Book"
      authors := some ["A. Author"]
      industryIdentifiers := some
        [{type := "ISBN_10", identifier := "0000000001"},
         {type := "ISBN_13", identifier := "9780000000001"}] }

/-- a volume with only an ISBN_10 identifier. -/
def volTen : GoogleBooksVolume where
  id := "def456"
  volumeInfo :=
    { title := "Old Book"
      industryIdentifiers := some [{type := "ISBN_10", identifier := "0000000001"}] }

/-- a bare volume: no identifiers, publisher, language or description. -/
def volBare : GoogleBooksVolume where
  id := "ghi789"
  volumeInfo := { title := "Bare Book" }

/-- C9 witness: concrete volumes exercising each preference level and the
three defaults. -/
theorem C9_toMinimalBook_witness :
    (convertGoogleBookToMinimalData volBoth 5 "2024-01-01").isbn = "9780000000001" ∧
    (convertGoogleBookToMinimalData volTen 5 "2024-01-01").isbn = "0000000001" ∧
    (convertGoogleBookToMinimalData volBare 5 "2024-01-01").isbn = "placeholder-5" ∧
    (convertGoogleBookToMinimalData volBare 5 "2024-01-01").publisher = "Unknown Publisher" ∧
    (convertGoogleBookToMinimalData volBare 5 "2024-01-01").language = "en" ∧
    (convertGoogleBookToMinimalData volBare 5 "2024-01-01").description = "" := by
  refine ⟨?_, ?_, ?_, ?_, ?_, ?_⟩
  · exact (C9_toMinimalBook volBoth 5 "2024-01-01").1
      {type := "ISBN_13", identifier := "9780000000001"} (by decide)
  · exact (C9_toMinimalBook volTen 5 "2024-01-01").2.1 (by decide)
      {type := "ISBN_10", identifier := "0000000001"} (by decide)
  · exact (C9_toMinimalBook volBare 5 "2024-01-01").2.2.1 (by decide) (by decide)
  · exact (C9_toMinimalBook volBare 5 "2024-01-01").2.2.2.1 (by decide)
  · exact (C9_toMinimalBook volBare 5 "2024-01-01").2.2.2.2.1 (by decide)
  · exact (C9_toMinimalBook volBare 5 "2024-01-01").2.2.2.2.2 (by decide)

/-- C10: when the raw volume has no authors list, the conversion invents
exactly one author named "Unknown Author" with a generated id — a default
the spec does not state. -/
theorem C10_unknown_author (g : GoogleBooksVolume) (nowMs : Nat) (today : String)
    (h : g.volumeInfo.authors = none) :
    (convertGoogleBookToMinimalData g nowMs today).authors =
      [{id := "author-unknown-author-" ++ toString nowMs, name := "Unknown Author"}] := by
  have hid : authorIdOf "Unknown Author" nowMs =
      "author-unknown-author-" ++ toString nowMs := by
    unfold authorIdOf
    rw [show ("author-" ++
      String.mk ((replaceWsAux false "Unknown Author".toList).map Char.toLower) ++ "-")
      = "author-unknown-author-" by decide]
  simp [convertGoogleBookToMinimalData, h, hid]

/-- C10 witness: the bare volume at time 5. -/
theorem C10_unknown_author_witness :
    (convertGoogleBookToMinimalData volBare 5 "2024-01-01").authors =
      [{id := "author-unknown-author-5", name := "Unknown Author"}] :=
  C10_unknown_author volBare 5 "2024-01-01" (by decide)

-- BookEnrichmentOrchestrator.

/-- The orchestrator's persistent state: the Book Repository state plus
the `shared_enriched_books` object (ISBN → Book), the `enrichment_queue`
array of ISBNs, and the persisted per-ISBN `retry_count_<isbn>` counters. -/
structure OrchState where
  repo : RepoState
  shared : List (String × Book)
  queue : List String
  retry : List (String × Nat)
  deriving DecidableEq

/-- JS object lookup `obj[key] || null`. -/
def lookupAssoc : List (String × Book) → String → Option Book
  | [], _ => none
  | (k, v) :: rest, q => if k == q then some v else lookupAssoc rest q

/-- JS object write `obj[key] = value` (replace or add the key). -/
def upsertAssoc : List (String × Book) → String → Book → List (String × Book)
  | [], k, v => [(k, v)]
  | (k0, v0) :: rest, k, v =>
      if k0 == k then (k, v) :: rest else (k0, v0) :: upsertAssoc rest k v

/-- `parseInt(localStorage.getItem(retryKey) || '0')`. -/
def lookupRetry : List (String × Nat) → String → Nat
  | [], _ => 0
  | (k, n) :: rest, q => if k == q then n else lookupRetry rest q

/-- `localStorage.setItem(retryKey, n)`. -/
def setRetry : List (String × Nat) → String → Nat → List (String × Nat)
  | [], k, n => [(k, n)]
  | (k0, n0) :: rest, k, n =>
      if k0 == k then (k, n) :: rest else (k0, n0) :: setRetry rest k n

/-- `localStorage.removeItem(retryKey)`. -/
def removeRetry (l : List (String × Nat)) (k : String) : List (String × Nat) :=
  l.filter (fun e => e.1 != k)

/-- `getEnrichedBookByISBN` of the orchestrator. -/
def getEnrichedBookByISBN (st : OrchState) (isbn : String) : Option Book :=
  lookupAssoc st.shared isbn

/-- `isInEnrichmentQueue`: `queue.includes(isbn)`. -/
def isInEnrichmentQueue (st : OrchState) (isbn : String) : Bool :=
  st.queue.contains isbn

/-- `addToEnrichmentQueue`: push the ISBN unless already present. -/
def addToEnrichmentQueue (st : OrchState) (isbn : String) : OrchState :=
  if st.queue.contains isbn then st else {st with queue := st.queue ++ [isbn]}

/-- `removeFromEnrichmentQueue`: filter the ISBN out of the queue. -/
def removeFromEnrichmentQueue (st : OrchState) (isbn : String) : OrchState :=
  {st with queue := st.queue.filter (fun q => q != isbn)}

/-- `saveEnrichedBook` of the orchestrator: with an empty ISBN it only
logs and returns; otherwise it writes the book into the shared
enriched-book object under its ISBN and removes the ISBN from the
enrichment queue. -/
def saveEnrichedBook (st : OrchState) (book : Book) : OrchState :=
  if book.isbn = "" then st
  else
    let st1 := {st with shared := upsertAssoc st.shared book.isbn book}
    removeFromEnrichmentQueue st1 book.isbn

/-- `needsEnrichment`: completion percentage below 80. -/
def needsEnrichment (st : OrchState) (book : Book) : Bool :=
  completionPercentage st.repo book.id < 80

/-- `createFullBookFromMinimalData` of BookMetadataService: expands
minimal data into a fully defaulted Book record. -/
def createFullBookFromMinimalData (m : MinimalBookData) (now : String) : Book where
  id := m.id
  isbn := m.isbn
  title := m.title
  authors := m.authors
  publisher := m.publisher
  publishedDate := m.publishedDate
  pageCount := m.pageCount
  language := m.language
  description := m.description
  coverImage := m.coverImage
  format := "paperback"
  genres := []
  subgenres := []
  subjects := []
  contentTags := []
  audience := "adult"
  fiction := true
  narrativeStructure := {pov := "third-person-limited", tense := "past", timeline := "linear"}
  themes := []
  locations := []
  characters := []
  userRating := 0
  readingStatus := "to-read"
  dateAdded := now
  isFavorite := false
  isReread := false
  readCount := 0
  readingSessions := []
  annotations := []
  userNotes := ""
  userTags := []
  emotionalResponse := {overall := "neutral", emotions := [], impactRating := 0, memorability := 0}
  awards := []
  culturalContext := {representation := [], diversityElements := []}
  complexity := {}
  lastModified := now

/-- the placeholder enrichment record written after the retry ceiling is
exhausted. -/
def placeholderEnrichment (title now : String) : BookAIEnrichment where
  themes := some []
  enrichmentDate := now
  enrichmentSource := "error"
  version := "1.0"
  aiAnalysis := some ("We\x27re currently experiencing difficulties analyzing \"" ++ title ++
    "\". The analysis will be updated automatically when available.")

/-- outcome of the try-block of one `processEnrichment` attempt: either
the enriched book it computed (from the analysis call or the
field-by-field fallback), or an exception. -/
inductive EnrichAttempt where
  | ok (enrichedBook : Book)
  | fail

/-- One attempt of `processEnrichment(book)`.  The AI interaction inside
the try block is abstracted by the `EnrichAttempt` outcome; everything
around it is translated from the source: the early return without an
ISBN, the enqueue-if-absent, on success the enrichment-source rewrite,
the repository save, the shared-cache save and the dequeue; on an
exception the persisted retry counter decides between scheduling a
delayed retry (counter < 3: increment, stay queued — the returned Bool
reports that a retry was scheduled) and the terminal path (clear the
counter, attach and save the placeholder note when the book has no
enriched data, dequeue).  `fixSource` is the success path's
source rewrite: unless the enrichment came from the classic-literature
fallback, the source is set to goodreads-via-perplexity. -/
def fixSource (ed : BookAIEnrichment) : BookAIEnrichment :=
  if ed.enrichmentSource = "classic_literature_database" then ed
  else {ed with enrichmentSource := "goodreads_via_perplexity"}

def processEnrichmentStep (st : OrchState) (book : Book) (att : EnrichAttempt)
    (now : String) : OrchState × Bool :=
  if book.isbn = "" then (st, false)
  else
    let st1 := addToEnrichmentQueue st book.isbn
    match att with
    | .ok enrichedBook =>
        let st2 :=
          match enrichedBook.enrichedData with
          | some ed =>
              let eb := {enrichedBook with enrichedData := some (fixSource ed)}
              let stA := {st1 with repo := (saveBook st1.repo eb now).1}
              if eb.isbn = "" then stA else saveEnrichedBook stA eb
          | none => st1
        (removeFromEnrichmentQueue st2 book.isbn, false)
    | .fail =>
        let rc := lookupRetry st1.retry book.isbn
        if rc < 3 then
          ({st1 with retry := setRetry st1.retry book.isbn (rc + 1)}, true)
        else
          let st2 := {st1 with retry := removeRetry st1.retry book.isbn}
          let st3 :=
            match book.enrichedData with
            | none =>
                {st2 with repo := (saveBook st2.repo
                  {book with enrichedData := some (placeholderEnrichment book.title now)} now).1}
            | some _ => st2
          (removeFromEnrichmentQueue st3 book.isbn, false)

/-- `addBookToLibrary` of the orchestrator.  The fetched raw volume is the
explicit `googleBook` parameter; the returned Bool reports whether a
background `processEnrichment` call was started (its effects are modelled
separately by `processEnrichmentStep`). -/
def addBookToLibrary (st : OrchState) (googleBookId : String)
    (googleBook : GoogleBooksVolume) (nowMs : Nat) (today now : String) :
    OrchState × Book × Bool :=
  let minimalData := convertGoogleBookToMinimalData googleBook nowMs today
  let cached := if minimalData.isbn = "" then none
    else getEnrichedBookByISBN st minimalData.isbn
  match cached with
  | some enrichedBook =>
      let bookForUser : Book :=
        {enrichedBook with
           id := googleBookId
           dateAdded := now
           readingStatus := "to-read"
           userRating := 0
           lastModified := now}
      let r := saveBook st.repo bookForUser now
      ({st with repo := r.1}, r.2, false)
  | none =>
      let fullBook := createFullBookFromMinimalData minimalData now
      let r := saveBook st.repo fullBook now
      ({st with repo := r.1}, r.2, r.2.isbn != "")

theorem lookupAssoc_upsert_self (l : List (String × Book)) (k : String) (v : Book) :
    lookupAssoc (upsertAssoc l k v) k = some v := by
  induction l with
  | nil => simp [upsertAssoc, lookupAssoc]
  | cons e rest ih =>
      obtain ⟨k0, v0⟩ := e
      by_cases hk : (k0 == k) = true
      · simp [upsertAssoc, hk, lookupAssoc]
      · simp only [upsertAssoc, hk, Bool.false_eq_true, if_neg, not_false_eq_true,
          lookupAssoc]
        exact ih

theorem lookupAssoc_upsert_other (l : List (String × Book)) (k q : String) (v : Book)
    (hq : q ≠ k) : lookupAssoc (upsertAssoc l k v) q = lookupAssoc l q := by
  have hkq : ¬ (k = q) := fun h => hq h.symm
  induction l with
  | nil => simp [upsertAssoc, lookupAssoc, hkq]
  | cons e rest ih =>
      obtain ⟨k0, v0⟩ := e
      by_cases hk : (k0 == k) = true
      · have hk0 : k0 = k := by simpa using hk
        simp [upsertAssoc, hk, lookupAssoc, hk0, hkq]
      · by_cases hq0 : (k0 == q) = true
        · simp [upsertAssoc, hk, lookupAssoc, hq0]
        · simp only [upsertAssoc, hk, Bool.false_eq_true, if_neg, not_false_eq_true,
            lookupAssoc, hq0]
          exact ih

theorem lookupRetry_setRetry_self (l : List (String × Nat)) (k : String) (n : Nat) :
    lookupRetry (setRetry l k n) k = n := by
  induction l with
  | nil => simp [setRetry, lookupRetry]
  | cons e rest ih =>
      obtain ⟨k0, n0⟩ := e
      by_cases hk : (k0 == k) = true
      · simp [setRetry, hk, lookupRetry]
      · simp only [setRetry, hk, Bool.false_eq_true, if_neg, not_false_eq_true,
          lookupRetry]
        exact ih

theorem lookupRetry_removeRetry (l : List (String × Nat)) (k : String) :
    lookupRetry (removeRetry l k) k = 0 := by
  induction l with
  | nil => rfl
  | cons e rest ih =>
      obtain ⟨k0, n0⟩ := e
      by_cases hk : (k0 != k) = true
      · have hk' : (k0 == k) = false := by simpa [bne] using hk
        simpa [removeRetry, List.filter, hk, lookupRetry, hk'] using ih
      · simpa [removeRetry, List.filter, hk] using ih

theorem queue_contains_append_self (l : List String) (i : String) :
    (l ++ [i]).contains i = true := by
  simp

theorem queue_contains_filter_ne (l : List String) (i : String) :
    (l.filter (fun q => q != i)).contains i = false := by
  simp only [List.contains, List.elem_eq_mem, decide_eq_false_iff_not]
  intro hmem
  have := List.of_mem_filter hmem
  simp at this

theorem addToEnrichmentQueue_contains (st : OrchState) (i : String) :
    (addToEnrichmentQueue st i).queue.contains i = true := by
  unfold addToEnrichmentQueue
  by_cases h : st.queue.contains i = true
  · rw [if_pos h]
    exact h
  · rw [if_neg h]
    exact queue_contains_append_self st.queue i

theorem addToEnrichmentQueue_retry (st : OrchState) (i : String) :
    (addToEnrichmentQueue st i).retry = st.retry := by
  unfold addToEnrichmentQueue
  split <;> rfl

theorem addToEnrichmentQueue_repo (st : OrchState) (i : String) :
    (addToEnrichmentQueue st i).repo = st.repo := by
  unfold addToEnrichmentQueue
  split <;> rfl

theorem addToEnrichmentQueue_shared (st : OrchState) (i : String) :
    (addToEnrichmentQueue st i).shared = st.shared := by
  unfold addToEnrichmentQueue
  split <;> rfl

theorem findBook_none_of_not_any (l : List Book) (k : String)
    (h : ¬ l.any (fun x => x.id == k) = true) : findBook l k = none := by
  induction l with
  | nil => rfl
  | cons a rest ih =>
      simp only [List.any_cons, Bool.or_eq_true, not_or] at h
      simp only [findBook, h.1, Bool.false_eq_true, if_neg, not_false_eq_true]
      exact ih h.2

theorem findBook_append_none (l₁ l₂ : List Book) (q : String)
    (h : findBook l₁ q = none) : findBook (l₁ ++ l₂) q = findBook l₂ q := by
  induction l₁ with
  | nil => simp [findBook]
  | cons a rest ih =>
      by_cases ha : (a.id == q) = true
      · simp [findBook, ha] at h
      · simp only [findBook, ha] at h
        simpa [findBook, ha] using ih h

theorem findBook_replaceFirstBook (l : List Book) (nb : Book)
    (hany : l.any (fun x => x.id == nb.id) = true) :
    findBook (replaceFirstBook l nb) nb.id = some nb := by
  induction l with
  | nil => simp at hany
  | cons a rest ih =>
      by_cases ha : (a.id == nb.id) = true
      · simp [replaceFirstBook, ha, findBook]
      · simp only [List.any_cons, ha, Bool.false_or] at hany
        simp only [replaceFirstBook, ha, Bool.false_eq_true, if_neg, not_false_eq_true,
          findBook]
        exact ih hany

/-- the book returned by `saveBook` is found again under its id. -/
theorem saveBook_getBookById (st : RepoState) (b : Book) (now : String) :
    getBookById (saveBook st b now).1 b.id = some {b with lastModified := now} := by
  unfold saveBook getBookById
  by_cases hany : st.books.any (fun x => x.id == b.id) = true
  · simp only [hany, if_pos]
    have : ({b with lastModified := now} : Book).id = b.id := rfl
    rw [show findBook (replaceFirstBook st.books {b with lastModified := now}) b.id =
        findBook (replaceFirstBook st.books {b with lastModified := now})
          ({b with lastModified := now} : Book).id from rfl]
    exact findBook_replaceFirstBook st.books {b with lastModified := now} (by simpa using hany)
  · simp only [hany, Bool.false_eq_true, if_neg, not_false_eq_true]
    rw [findBook_append_none _ _ _ (findBook_none_of_not_any st.books b.id hany)]
    simp [findBook]

/-- failure branch of an attempt while the persisted counter is below 3:
increment the counter and schedule a retry; nothing else changes. -/
theorem processEnrichmentStep_fail_lt (st : OrchState) (book : Book) (now : String)
    (hisbn : book.isbn ≠ "") (hrc : lookupRetry st.retry book.isbn < 3) :
    processEnrichmentStep st book .fail now =
      ({addToEnrichmentQueue st book.isbn with
          retry := setRetry st.retry book.isbn (lookupRetry st.retry book.isbn + 1)},
        true) := by
  simp [processEnrichmentStep, hisbn, addToEnrichmentQueue_retry, hrc]

/-- failure branch of an attempt once the counter is no longer below 3,
for a book without enriched data: clear the counter, save the book with
the placeholder note, and dequeue. -/
theorem processEnrichmentStep_fail_ge (st : OrchState) (book : Book) (now : String)
    (hisbn : book.isbn ≠ "") (hrc : ¬ lookupRetry st.retry book.isbn < 3)
    (hnone : book.enrichedData = none) :
    processEnrichmentStep st book .fail now =
      (removeFromEnrichmentQueue
        {addToEnrichmentQueue st book.isbn with
           retry := removeRetry st.retry book.isbn,
           repo := (saveBook st.repo
             {book with enrichedData := some (placeholderEnrichment book.title now)}
             now).1}
        book.isbn, false) := by
  simp [processEnrichmentStep, hisbn, addToEnrichmentQueue_retry,
    addToEnrichmentQueue_repo, hrc, hnone]

/-- same, for a book that already has enriched data: no placeholder is
written. -/
theorem processEnrichmentStep_fail_ge_some (st : OrchState) (book : Book)
    (now : String) (ed : BookAIEnrichment)
    (hisbn : book.isbn ≠ "") (hrc : ¬ lookupRetry st.retry book.isbn < 3)
    (hsome : book.enrichedData = some ed) :
    processEnrichmentStep st book .fail now =
      (removeFromEnrichmentQueue
        {addToEnrichmentQueue st book.isbn with
           retry := removeRetry st.retry book.isbn}
        book.isbn, false) := by
  simp [processEnrichmentStep, hisbn, addToEnrichmentQueue_retry, hrc, hsome]

/-- consecutive failing attempts for the same book at the given
timestamps. -/
def iterateFails : OrchState → Book → List String → OrchState
  | st, _, [] => st
  | st, book, n :: rest =>
      iterateFails (processEnrichmentStep st book .fail n).1 book rest

theorem iterateFails_nil (st : OrchState) (book : Book) :
    iterateFails st book [] = st := rfl

theorem iterateFails_cons (st : OrchState) (book : Book) (n : String)
    (rest : List String) :
    iterateFails st book (n :: rest) =
      iterateFails (processEnrichmentStep st book .fail n).1 book rest := rfl

/-- C1: on a failed attempt for a queued ISBN, while the persisted
counter is below 3 the counter is incremented, a delayed re-attempt is
scheduled and the ISBN stays queued; once the counter has reached 3 the
counter is cleared, the ISBN is dequeued, no retry is scheduled, and a
book without enriched data is saved with the terminal placeholder note.
Consequently, after 4 consecutive failures starting from a zero counter,
the ISBN is no longer queued, the counter is cleared, and the book
carries the placeholder note. -/
theorem C1_retry_policy :
    (∀ (st : OrchState) (book : Book) (now : String),
        book.isbn ≠ "" → lookupRetry st.retry book.isbn < 3 →
        (processEnrichmentStep st book .fail now).2 = true ∧
        lookupRetry (processEnrichmentStep st book .fail now).1.retry book.isbn =
          lookupRetry st.retry book.isbn + 1 ∧
        (processEnrichmentStep st book .fail now).1.queue.contains book.isbn = true) ∧
    (∀ (st : OrchState) (book : Book) (now : String),
        book.isbn ≠ "" → lookupRetry st.retry book.isbn = 3 →
        (processEnrichmentStep st book .fail now).2 = false ∧
        lookupRetry (processEnrichmentStep st book .fail now).1.retry book.isbn = 0 ∧
        (processEnrichmentStep st book .fail now).1.queue.contains book.isbn = false ∧
        (book.enrichedData = none →
          getBookById (processEnrichmentStep st book .fail now).1.repo book.id =
            some {book with
                    enrichedData := some (placeholderEnrichment book.title now),
                    lastModified := now})) ∧
    (∀ (st : OrchState) (book : Book) (n1 n2 n3 n4 : String),
        book.isbn ≠ "" → lookupRetry st.retry book.isbn = 0 →
        book.enrichedData = none →
        (processEnrichmentStep st book .fail n1).2 = true ∧
        (processEnrichmentStep (iterateFails st book [n1]) book .fail n2).2 = true ∧
        (processEnrichmentStep (iterateFails st book [n1, n2]) book .fail n3).2 = true ∧
        (processEnrichmentStep (iterateFails st book [n1, n2, n3]) book .fail n4).2 = false ∧
        (iterateFails st book [n1, n2, n3, n4]).queue.contains book.isbn = false ∧
        lookupRetry (iterateFails st book [n1, n2, n3, n4]).retry book.isbn = 0 ∧
        getBookById (iterateFails st book [n1, n2, n3, n4]).repo book.id =
          some {book with
                  enrichedData := some (placeholderEnrichment book.title n4),
                  lastModified := n4}) := by
  refine ⟨?_, ?_, ?_⟩
  · intro st book now hisbn hrc
    rw [processEnrichmentStep_fail_lt st book now hisbn hrc]
    exact ⟨rfl, lookupRetry_setRetry_self _ _ _,
      addToEnrichmentQueue_contains st book.isbn⟩
  · intro st book now hisbn hrc3
    have hrc : ¬ lookupRetry st.retry book.isbn < 3 := by omega
    cases hed : book.enrichedData with
    | none =>
        rw [processEnrichmentStep_fail_ge st book now hisbn hrc hed]
        refine ⟨rfl, lookupRetry_removeRetry _ _, queue_contains_filter_ne _ _, ?_⟩
        intro _
        exact saveBook_getBookById st.repo _ now
    | some ed =>
        rw [processEnrichmentStep_fail_ge_some st book now ed hisbn hrc hed]
        refine ⟨rfl, lookupRetry_removeRetry _ _, queue_contains_filter_ne _ _, ?_⟩
        intro h
        exact Option.noConfusion h
  · intro st book n1 n2 n3 n4 hisbn h0 hnone
    have A : ∀ (s : OrchState) (n : String), lookupRetry s.retry book.isbn < 3 →
        lookupRetry (processEnrichmentStep s book .fail n).1.retry book.isbn =
          lookupRetry s.retry book.isbn + 1 ∧
        (processEnrichmentStep s book .fail n).2 = true := by
      intro s n hlt
      rw [processEnrichmentStep_fail_lt s book n hisbn hlt]
      exact ⟨lookupRetry_setRetry_self _ _ _, rfl⟩
    obtain ⟨r1ret, r1sched⟩ := A st n1 (by omega)
    obtain ⟨r2ret, r2sched⟩ :=
      A (processEnrichmentStep st book .fail n1).1 n2 (by rw [r1ret, h0]; omega)
    obtain ⟨r3ret, r3sched⟩ :=
      A (processEnrichmentStep (processEnrichmentStep st book .fail n1).1 book .fail n2).1
        n3 (by rw [r2ret, r1ret, h0]; omega)
    have h3 : lookupRetry
        (processEnrichmentStep
          (processEnrichmentStep (processEnrichmentStep st book .fail n1).1
            book .fail n2).1 book .fail n3).1.retry book.isbn = 3 := by
      rw [r3ret, r2ret, r1ret, h0]
    have e4 := processEnrichmentStep_fail_ge
      (processEnrichmentStep
        (processEnrichmentStep (processEnrichmentStep st book .fail n1).1
          book .fail n2).1 book .fail n3).1
      book n4 hisbn (by rw [h3]; omega) hnone
    simp only [iterateFails_cons, iterateFails_nil]
    refine ⟨r1sched, r2sched, r3sched, by rw [e4], ?_, ?_, ?_⟩
    · rw [e4]
      exact queue_contains_filter_ne _ _
    · rw [e4]
      exact lookupRetry_removeRetry _ _
    · rw [e4]
      exact saveBook_getBookById _ _ n4

/-- a concrete orchestrator state around `repoW`, used by witnesses. -/
def orchW : OrchState := {repo := repoW, shared := [], queue := [], retry := []}

/-- C1 witness: four consecutive failures for the concrete book. -/
theorem C1_retry_policy_witness :
    (processEnrichmentStep orchW witnessBook .fail "t1").2 = true ∧
    (iterateFails orchW witnessBook ["t1", "t2", "t3", "t4"]).queue.contains
      "9780000000001" = false ∧
    lookupRetry (iterateFails orchW witnessBook ["t1", "t2", "t3", "t4"]).retry
      "9780000000001" = 0 ∧
    getBookById (iterateFails orchW witnessBook ["t1", "t2", "t3", "t4"]).repo "b1" =
      some {witnessBook with
              enrichedData := some (placeholderEnrichment "Test Book" "t4"),
              lastModified := "t4"} := by
  have h := C1_retry_policy.2.2 orchW witnessBook "t1" "t2" "t3" "t4"
    (by decide) (by decide) rfl
  exact ⟨h.1, h.2.2.2.2.1, h.2.2.2.2.2.1, h.2.2.2.2.2.2⟩

/-- the book returned by `saveBook` is the input with `lastModified`
rewritten, in both the replace and the append branch. -/
theorem saveBook_snd (st : RepoState) (b : Book) (now : String) :
    (saveBook st b now).2 = {b with lastModified := now} := by
  unfold saveBook
  split <;> rfl

theorem createFullBook_isbn (m : MinimalBookData) (now : String) :
    (createFullBookFromMinimalData m now).isbn = m.isbn := rfl

/-- cache-hit branch of `addBookToLibrary` as one equation. -/
theorem addBookToLibrary_hit (st : OrchState) (gid : String)
    (g : GoogleBooksVolume) (nowMs : Nat) (today now : String) (cached : Book)
    (hisbn : (convertGoogleBookToMinimalData g nowMs today).isbn ≠ "")
    (hl : getEnrichedBookByISBN st
      (convertGoogleBookToMinimalData g nowMs today).isbn = some cached) :
    addBookToLibrary st gid g nowMs today now =
      ({st with repo := (saveBook st.repo
          {cached with id := gid, dateAdded := now, readingStatus := "to-read",
                       userRating := 0, lastModified := now} now).1},
        (saveBook st.repo
          {cached with id := gid, dateAdded := now, readingStatus := "to-read",
                       userRating := 0, lastModified := now} now).2,
        false) := by
  simp [addBookToLibrary, hisbn, hl]

/-- cache-miss branch of `addBookToLibrary` as one equation. -/
theorem addBookToLibrary_miss (st : OrchState) (gid : String)
    (g : GoogleBooksVolume) (nowMs : Nat) (today now : String)
    (hl : getEnrichedBookByISBN st
      (convertGoogleBookToMinimalData g nowMs today).isbn = none) :
    addBookToLibrary st gid g nowMs today now =
      ({st with repo := (saveBook st.repo
          (createFullBookFromMinimalData
            (convertGoogleBookToMinimalData g nowMs today) now) now).1},
        (saveBook st.repo
          (createFullBookFromMinimalData
            (convertGoogleBookToMinimalData g nowMs today) now) now).2,
        ((saveBook st.repo
          (createFullBookFromMinimalData
            (convertGoogleBookToMinimalData g nowMs today) now) now).2.isbn != "")) := by
  by_cases hisbn : (convertGoogleBookToMinimalData g nowMs today).isbn = ""
  · simp [addBookToLibrary, hisbn]
  · simp [addBookToLibrary, hisbn, hl]

/-- a successful attempt whose computed book has enriched data and a
non-empty ISBN writes that book into the shared cache under its ISBN. -/
theorem processEnrichmentStep_ok_shared (st : OrchState) (book : Book)
    (now : String) (enriched : Book) (ed : BookAIEnrichment)
    (hisbn : book.isbn ≠ "") (hed : enriched.enrichedData = some ed)
    (hei : enriched.isbn ≠ "") :
    ∃ eb : Book, eb.isbn = enriched.isbn ∧
      lookupAssoc (processEnrichmentStep st book (.ok enriched) now).1.shared
        enriched.isbn = some eb := by
  refine ⟨{enriched with enrichedData := some (fixSource ed)}, rfl, ?_⟩
  simp only [processEnrichmentStep, hisbn, if_neg, not_false_eq_true, hed]
  have heb : ({enriched with enrichedData := some (fixSource ed)} : Book).isbn ≠ "" := hei
  simp only [saveEnrichedBook, heb, if_neg, not_false_eq_true,
    removeFromEnrichmentQueue, addToEnrichmentQueue_shared]
  exact lookupAssoc_upsert_self _ _ _

/-- C3: when the converted minimal data has an ISBN with a shared-cache
entry, `addBookToLibrary` returns that cached entry with `id` set to the
catalog id, `dateAdded` set to now, `readingStatus` "to-read",
`userRating` 0 (and the `lastModified` bump of the save), saves it into
the caller's collection, and triggers no enrichment call; consequently two
sequential adds that resolve to the same non-empty ISBN — with the
enrichment started by the first one succeeding in between — trigger
exactly one enrichment call, the second being served from the shared
cache. -/
theorem C3_addBookToLibrary_cacheHit :
    (∀ (st : OrchState) (gid : String) (g : GoogleBooksVolume) (nowMs : Nat)
        (today now : String) (cached : Book),
        (convertGoogleBookToMinimalData g nowMs today).isbn ≠ "" →
        getEnrichedBookByISBN st
          (convertGoogleBookToMinimalData g nowMs today).isbn = some cached →
        (addBookToLibrary st gid g nowMs today now).2.2 = false ∧
        (addBookToLibrary st gid g nowMs today now).2.1 =
          {cached with id := gid, dateAdded := now, readingStatus := "to-read",
                       userRating := 0, lastModified := now} ∧
        (addBookToLibrary st gid g nowMs today now).1.shared = st.shared ∧
        (addBookToLibrary st gid g nowMs today now).1.queue = st.queue ∧
        getBookById (addBookToLibrary st gid g nowMs today now).1.repo gid =
          some {cached with id := gid, dateAdded := now, readingStatus := "to-read",
                            userRating := 0, lastModified := now}) ∧
    (∀ (st : OrchState) (gid1 gid2 : String) (g1 g2 : GoogleBooksVolume)
        (nowMs1 nowMs2 : Nat) (today now1 now2 now3 : String)
        (enriched : Book) (ed : BookAIEnrichment),
        (convertGoogleBookToMinimalData g1 nowMs1 today).isbn ≠ "" →
        (convertGoogleBookToMinimalData g2 nowMs2 today).isbn =
          (convertGoogleBookToMinimalData g1 nowMs1 today).isbn →
        getEnrichedBookByISBN st
          (convertGoogleBookToMinimalData g1 nowMs1 today).isbn = none →
        enriched.isbn = (convertGoogleBookToMinimalData g1 nowMs1 today).isbn →
        enriched.enrichedData = some ed →
        (addBookToLibrary st gid1 g1 nowMs1 today now1).2.2 = true ∧
        (addBookToLibrary
            (processEnrichmentStep (addBookToLibrary st gid1 g1 nowMs1 today now1).1
              (addBookToLibrary st gid1 g1 nowMs1 today now1).2.1
              (.ok enriched) now2).1
            gid2 g2 nowMs2 today now3).2.2 = false) := by
  constructor
  · intro st gid g nowMs today now cached hisbn hl
    rw [addBookToLibrary_hit st gid g nowMs today now cached hisbn hl]
    refine ⟨rfl, ?_, rfl, rfl, ?_⟩
    · rw [saveBook_snd]
    · exact saveBook_getBookById st.repo _ now
  · intro st gid1 gid2 g1 g2 nowMs1 nowMs2 today now1 now2 now3 enriched ed
      hisbn1 hsame hmiss hei hed
    have e1 := addBookToLibrary_miss st gid1 g1 nowMs1 today now1 hmiss
    constructor
    · rw [e1, saveBook_snd]
      simpa [createFullBook_isbn, bne_iff_ne] using hisbn1
    · have hbisbn : (addBookToLibrary st gid1 g1 nowMs1 today now1).2.1.isbn ≠ "" := by
        rw [e1, saveBook_snd]
        exact hisbn1
      have heisbn : enriched.isbn ≠ "" := by
        rw [hei]
        exact hisbn1
      obtain ⟨eb, hebisbn, hebl⟩ := processEnrichmentStep_ok_shared
        (addBookToLibrary st gid1 g1 nowMs1 today now1).1
        (addBookToLibrary st gid1 g1 nowMs1 today now1).2.1
        now2 enriched ed hbisbn hed heisbn
      have hl2 : getEnrichedBookByISBN
          (processEnrichmentStep (addBookToLibrary st gid1 g1 nowMs1 today now1).1
            (addBookToLibrary st gid1 g1 nowMs1 today now1).2.1
            (.ok enriched) now2).1
          (convertGoogleBookToMinimalData g2 nowMs2 today).isbn = some eb := by
        unfold getEnrichedBookByISBN
        rw [hsame, ← hei]
        exact hebl
      have hisbn2 : (convertGoogleBookToMinimalData g2 nowMs2 today).isbn ≠ "" := by
        rw [hsame]
        exact hisbn1
      rw [addBookToLibrary_hit _ gid2 g2 nowMs2 today now3 eb hisbn2 hl2]

/-- a state whose shared cache has an entry for the witness ISBN. -/
def orchHit : OrchState :=
  {repo := emptyRepo, shared := [("9780000000001", witnessBook)], queue := [], retry := []}

/-- C3 witness: adding a catalog entry whose ISBN is in the shared cache
is served from the cache without an enrichment call. -/
theorem C3_addBookToLibrary_cacheHit_witness :
    (addBookToLibrary orchHit "newid" volBoth 5 "2024-01-01" "t5").2.2 = false ∧
    (addBookToLibrary orchHit "newid" volBoth 5 "2024-01-01" "t5").2.1 =
      {witnessBook with id := "newid", dateAdded := "t5",
                        readingStatus := "to-read", userRating := 0,
                        lastModified := "t5"} := by
  have h := C3_addBookToLibrary_cacheHit.1 orchHit "newid" volBoth 5 "2024-01-01"
    "t5" witnessBook (by decide) (by decide)
  exact ⟨h.1, h.2.1⟩

/-- a state with the witness ISBN queued and an empty collection. -/
def orchQ : OrchState :=
  {repo := emptyRepo, shared := [], queue := ["9780000000001"], retry := []}

/-- C4 counterexample: `saveEnrichedBook` on a book with a non-empty ISBN
writes the shared cache and clears the queue, but does NOT write the
caller's own collection — the book is still absent from the repository
afterwards, contradicting the claimed upsert through the Book
Repository. -/
theorem C4_counterexample :
    witnessBook.isbn = "9780000000001" ∧
    getEnrichedBookByISBN (saveEnrichedBook orchQ witnessBook) "9780000000001" =
      some witnessBook ∧
    (saveEnrichedBook orchQ witnessBook).queue = [] ∧
    getBookById (saveEnrichedBook orchQ witnessBook).repo "b1" = none ∧
    (saveEnrichedBook orchQ witnessBook).repo.books = [] := by decide

/-- C4 (amended): with an empty ISBN, `saveEnrichedBook` changes nothing;
with a non-empty ISBN it upserts the book into the shared cache under its
ISBN (leaving other keys untouched) and removes the ISBN from the queue,
while the caller's collection (the repository state) and the retry
counters are left unchanged. -/
theorem C4_saveEnrichedBook (st : OrchState) (book : Book) :
    (book.isbn = "" → saveEnrichedBook st book = st) ∧
    (book.isbn ≠ "" →
        getEnrichedBookByISBN (saveEnrichedBook st book) book.isbn = some book ∧
        (saveEnrichedBook st book).queue.contains book.isbn = false ∧
        (saveEnrichedBook st book).repo = st.repo ∧
        (saveEnrichedBook st book).retry = st.retry ∧
        (∀ k, k ≠ book.isbn →
            lookupAssoc (saveEnrichedBook st book).shared k =
              lookupAssoc st.shared k)) := by
  constructor
  · intro h
    simp [saveEnrichedBook, h]
  · intro h
    have he : saveEnrichedBook st book =
        removeFromEnrichmentQueue
          {st with shared := upsertAssoc st.shared book.isbn book} book.isbn := by
      simp [saveEnrichedBook, h]
    rw [he]
    refine ⟨?_, ?_, rfl, rfl, ?_⟩
    · exact lookupAssoc_upsert_self _ _ _
    · exact queue_contains_filter_ne _ _
    · intro k hk
      exact lookupAssoc_upsert_other _ _ _ _ hk

/-- C4 witness: the amended behaviour at the concrete queued state. -/
theorem C4_saveEnrichedBook_witness :
    getEnrichedBookByISBN (saveEnrichedBook orchQ witnessBook) "9780000000001" =
      some witnessBook ∧
    (saveEnrichedBook orchQ witnessBook).queue.contains "9780000000001" = false ∧
    (saveEnrichedBook orchQ witnessBook).repo = emptyRepo := by
  have h := (C4_saveEnrichedBook orchQ witnessBook).2 (by decide)
  exact ⟨h.1, h.2.1, h.2.2.1⟩

-- Text-Generation Client: JSON extraction from AI responses.

/-- a JSON value; `JSON.parse` results are modelled with integer
numerals (no floating-point literals, which the claims never exercise). -/
inductive JsonVal where
  | null
  | bool (b : Bool)
  | num (n : Int)
  | str (s : String)
  | arr (xs : List JsonVal)
  | obj (fields : List (String × JsonVal))

/-- the opening brace character, `\x7b`. -/
def lbrace : Char := Char.ofNat 123

/-- the closing brace character, `\x7d`. -/
def rbrace : Char := Char.ofNat 125

/-- JSON whitespace (space, tab, newline, carriage return). -/
def isJsonWs (c : Char) : Bool :=
  c = ' ' || c = '\t' || c = '\n' || c = '\x0d'

/-- string-literal body: characters up to the closing quote, with the
basic escapes. -/
def parseStringBody : List Char → List Char → Option (String × List Char)
  | [], _ => none
  | c :: rest, acc =>
      if c = '"' then some (String.mk acc.reverse, rest)
      else if c = '\\' then
        match rest with
        | [] => none
        | e :: rest2 =>
            if e = '"' then parseStringBody rest2 ('"' :: acc)
            else if e = '\\' then parseStringBody rest2 ('\\' :: acc)
            else if e = '/' then parseStringBody rest2 ('/' :: acc)
            else if e = 'n' then parseStringBody rest2 ('\n' :: acc)
            else if e = 't' then parseStringBody rest2 ('\t' :: acc)
            else if e = 'r' then parseStringBody rest2 ('\x0d' :: acc)
            else none
      else parseStringBody rest (c :: acc)

/-- an integer numeral: optional minus sign and one or more digits, not
followed by a fraction or exponent. -/
def parseNumber (l : List Char) : Option (Int × List Char) :=
  let (neg, l1) :=
    match l with
    | c :: rest => if c = '-' then (true, rest) else (false, l)
    | [] => (false, l)
  let digits := l1.takeWhile Char.isDigit
  let rest := l1.dropWhile Char.isDigit
  if digits.isEmpty then none
  else
    match rest with
    | c :: _ => if c = '.' || c = 'e' || c = 'E' then none else
        some (condNum neg digits, rest)
    | [] => some (condNum neg digits, rest)
where
  condNum (neg : Bool) (digits : List Char) : Int :=
    let n : Nat := digits.foldl (fun acc c => acc * 10 + (c.toNat - 48)) 0
    if neg then -(n : Int) else (n : Int)

mutual

/-- recursive-descent model of `JSON.parse` on one value; the fuel bounds
the recursion depth. -/
def parseVal : Nat → List Char → Option (JsonVal × List Char)
  | 0, _ => none
  | fuel + 1, l =>
      let l := l.dropWhile isJsonWs
      match l with
      | [] => none
      | c :: rest =>
          if c = 'n' then
            if "ull".toList.isPrefixOf rest then some (.null, rest.drop 3) else none
          else if c = 't' then
            if "rue".toList.isPrefixOf rest then some (.bool true, rest.drop 3) else none
          else if c = 'f' then
            if "alse".toList.isPrefixOf rest then some (.bool false, rest.drop 4) else none
          else if c = '"' then
            match parseStringBody rest [] with
            | some (s, rest2) => some (.str s, rest2)
            | none => none
          else if c = '[' then
            parseArrItems fuel (rest.dropWhile isJsonWs) true
          else if c = lbrace then
            parseObjItems fuel (rest.dropWhile isJsonWs) true
          else
            match parseNumber l with
            | some (n, rest2) => some (.num n, rest2)
            | none => none

/-- items of an array, after the opening bracket; `first` is true before
the first item. -/
def parseArrItems : Nat → List Char → Bool → Option (JsonVal × List Char)
  | 0, _, _ => none
  | fuel + 1, l, first =>
      match l with
      | [] => none
      | c :: rest =>
          if c == ']' && first then some (.arr [], rest)
          else
            match parseVal fuel l with
            | none => none
            | some (v, rest2) =>
                let rest3 := rest2.dropWhile isJsonWs
                match rest3 with
                | ']' :: rest4 => some (.arr [v], rest4)
                | ',' :: rest4 =>
                    match parseArrItems fuel (rest4.dropWhile isJsonWs) false with
                    | some (.arr vs, rest5) => some (.arr (v :: vs), rest5)
                    | _ => none
                | _ => none

/-- members of an object, after the opening brace. -/
def parseObjItems : Nat → List Char → Bool → Option (JsonVal × List Char)
  | 0, _, _ => none
  | fuel + 1, l, first =>
      match l with
      | [] => none
      | c :: rest =>
          if c == rbrace && first then some (.obj [], rest)
          else if c = '"' then
            match parseStringBody rest [] with
            | none => none
            | some (k, rest2) =>
                match rest2.dropWhile isJsonWs with
                | ':' :: rest3 =>
                    match parseVal fuel rest3 with
                    | none => none
                    | some (v, rest4) =>
                        match rest4.dropWhile isJsonWs with
                        | c2 :: rest5 =>
                            if c2 = rbrace then some (.obj [(k, v)], rest5)
                            else if c2 = ',' then
                              match parseObjItems fuel (rest5.dropWhile isJsonWs) false with
                              | some (.obj kvs, rest6) => some (.obj ((k, v) :: kvs), rest6)
                              | _ => none
                            else none
                        | [] => none
                | _ => none
          else none

end

/-- model of `JSON.parse`: parse one value and require only whitespace
after it. -/
def jsonParse (s : String) : Option JsonVal :=
  match parseVal (2 * s.length + 16) s.toList with
  | some (v, rest) => if (rest.dropWhile isJsonWs).isEmpty then some v else none
  | none => none

/-- index of the first occurrence of `pat` in the list, if any. -/
def findSubFrom (pat : List Char) : List Char → Option Nat
  | [] => none
  | c :: rest =>
      if pat.isPrefixOf (c :: rest) then some 0
      else (findSubFrom pat rest).map (· + 1)

/-- model of the JS regex match `/```json\n([\s\S]*?)\n```/` on the
response: (whole match, capture). -/
def fencedJsonMatch (s : List Char) : Option (List Char × List Char) :=
  match findSubFrom "```json\n".toList s with
  | none => none
  | some i =>
      let after := s.drop (i + 8)
      match findSubFrom "\n```".toList after with
      | none => none
      | some k => some ((s.drop i).take (8 + k + 4), after.take k)

/-- model of `/```\n([\s\S]*?)\n```/`. -/
def fencedPlainMatch (s : List Char) : Option (List Char × List Char) :=
  match findSubFrom "```\n".toList s with
  | none => none
  | some i =>
      let after := s.drop (i + 4)
      match findSubFrom "\n```".toList after with
      | none => none
      | some k => some ((s.drop i).take (4 + k + 4), after.take k)

/-- model of the non-greedy `/{[\s\S]*?}/`: from the first opening brace
to the first closing brace after it (not balanced). -/
def lazyBraceMatch (s : List Char) : Option (List Char) :=
  match findSubFrom [lbrace] s with
  | none => none
  | some i =>
      let after := s.drop (i + 1)
      match findSubFrom [rbrace] after with
      | none => none
      | some k => some ((s.drop i).take (k + 2))

/-- model of the non-greedy `/(\[[\s\S]*?\]|{[\s\S]*?})/`: leftmost
position where either a bracketed or a braced lazy span starts. -/
def scanBracketBrace : List Char → Option (List Char)
  | [] => none
  | c :: rest =>
      if c = '[' then
        match findSubFrom [']'] rest with
        | some k => some ('[' :: rest.take (k + 1))
        | none => scanBracketBrace rest
      else if c = lbrace then
        match findSubFrom [rbrace] rest with
        | some k => some (lbrace :: rest.take (k + 1))
        | none => scanBracketBrace rest
      else scanBracketBrace rest

/-- JS `String.prototype.trim` (over the ASCII whitespace the model
covers). -/
def jsTrim (s : String) : String :=
  String.mk (((s.toList.dropWhile isJsonWs).reverse.dropWhile isJsonWs).reverse)

/-- `safeParseJSON` of the variant AIEnrichmentService: direct
`JSON.parse` first; then the ```json fence, the plain fence or the lazy
braced span (parsing the capture when it is non-empty, else the whole
match); as a last resort the first lazy bracketed or braced span; a parse
failure anywhere in the chosen step throws (None). -/
def safeParseJSON (s : String) : Option JsonVal :=
  match jsonParse s with
  | some v => some v
  | none =>
      match fencedJsonMatch s.toList with
      | some (m0, cap) =>
          if cap.isEmpty then jsonParse (String.mk m0) else jsonParse (String.mk cap)
      | none =>
          match fencedPlainMatch s.toList with
          | some (m0, cap) =>
              if cap.isEmpty then jsonParse (String.mk m0) else jsonParse (String.mk cap)
          | none =>
              match lazyBraceMatch s.toList with
              | some m0 => jsonParse (String.mk m0)
              | none =>
                  match scanBracketBrace s.toList with
                  | some m0 => jsonParse (String.mk m0)
                  | none => none

/-- greedy `([\s\S]*)\]$` tail (multiline): index of the LAST closing
character that sits at a line end. -/
def lastCloseIdx (cl : Char) : List Char → Option Nat
  | [] => none
  | c :: rest =>
      match lastCloseIdx cl rest with
      | some k => some (k + 1)
      | none =>
          if c = cl && (rest.isEmpty || rest.head? == some '\n') then some 0
          else none

/-- model of the single pattern of `parseJsonFromResponse`,
`/```json\n([\s\S]*?)\n```|^\[([\s\S]*)\]$|^\{([\s\S]*)\}$/m`: scan for
the leftmost position where one of the three alternatives matches and
return the matched alternative's capture (for the anchored alternatives
the capture excludes the outer brackets). -/
def pjrScan : List Char → Bool → Option (List Char)
  | [], _ => none
  | c :: rest, atLineStart =>
      if "```json\n".toList.isPrefixOf (c :: rest) then
        match findSubFrom "\n```".toList ((c :: rest).drop 8) with
        | some k => some (((c :: rest).drop 8).take k)
        | none => pjrScan rest (c == '\n')
      else if atLineStart && c == '[' then
        match lastCloseIdx ']' rest with
        | some j => some (rest.take j)
        | none => pjrScan rest (c == '\n')
      else if atLineStart && c == lbrace then
        match lastCloseIdx rbrace rest with
        | some j => some (rest.take j)
        | none => pjrScan rest (c == '\n')
      else pjrScan rest (c == '\n')

/-- `parseJsonFromResponse` of src AIEnrichmentService: match the pattern
first; on a match, parse the first non-empty capture (falling back to the
whole response when the capture is empty); without a match, parse the
whole trimmed response; any parse failure yields None. -/
def parseJsonFromResponse (s : String) : Option JsonVal :=
  match pjrScan s.toList true with
  | some cap =>
      let jsonContent := if cap.isEmpty then s else String.mk cap
      jsonParse (jsTrim jsonContent)
  | none => jsonParse (jsTrim s)

/-- C7 counterexample.  The claim — a direct JSON parse of the whole
response is attempted first, then a fenced block, then the first balanced
span, with a parse failure only when all fail — is false on the code:
`parseJsonFromResponse` signals failure on the plain JSON array "[1,2]"
(its anchored pattern strips the brackets before parsing) even though the
direct parse succeeds, and `safeParseJSON` signals failure on a response
holding the balanced span of a nested object (its span match is
non-greedy, not balanced) even though that balanced span parses. -/
theorem C7_counterexample :
    jsonParse "[1,2]" = some (JsonVal.arr [JsonVal.num 1, JsonVal.num 2]) ∧
    parseJsonFromResponse "[1,2]" = none ∧
    safeParseJSON "See: \x7b\"a\":\x7b\"b\":1\x7d\x7d" = none ∧
    jsonParse "\x7b\"a\":\x7b\"b\":1\x7d\x7d" =
      some (JsonVal.obj [("a", JsonVal.obj [("b", JsonVal.num 1)])]) :=
  ⟨rfl, rfl, rfl, rfl⟩

/-- C7 (amended): `safeParseJSON` attempts a direct JSON parse of the
whole response first, and when that fails extracts JSON from a
```json-fenced code block (then a plain fence, then the first non-greedy
— not balanced — braced span, then the first non-greedy bracketed or
braced span), failing only when the chosen extraction fails;
`parseJsonFromResponse` instead tries its pattern before any whole-string
parse.  For a response body that is exactly a ```json-fenced array of
theme objects, both implementations return the parsed array rather than a
parse failure. -/
theorem C7_extractJSON :
    (∀ (s : String) (v : JsonVal), jsonParse s = some v → safeParseJSON s = some v) ∧
    (∀ (s : String) (v : JsonVal) (m0 cap : List Char),
        jsonParse s = none → fencedJsonMatch s.toList = some (m0, cap) →
        cap ≠ [] → jsonParse (String.mk cap) = some v →
        safeParseJSON s = some v) ∧
    safeParseJSON
        "```json\n[\x7b\"name\":\"Loss\",\"relevance\":5,\"userNotes\":\"x\"\x7d]\n```" =
      some (JsonVal.arr [JsonVal.obj
        [("name", JsonVal.str "Loss"), ("relevance", JsonVal.num 5),
         ("userNotes", JsonVal.str "x")]]) ∧
    parseJsonFromResponse
        "```json\n[\x7b\"name\":\"Loss\",\"relevance\":5,\"userNotes\":\"x\"\x7d]\n```" =
      some (JsonVal.arr [JsonVal.obj
        [("name", JsonVal.str "Loss"), ("relevance", JsonVal.num 5),
         ("userNotes", JsonVal.str "x")]]) := by
  refine ⟨?_, ?_, rfl, rfl⟩
  · intro s v h
    unfold safeParseJSON
    rw [h]
  · intro s v m0 cap h1 h2 hne h3
    have hcap : cap.isEmpty = false := by
      cases cap with
      | nil => exact absurd rfl hne
      | cons a l => rfl
    unfold safeParseJSON
    rw [h1, h2]
    simp only [hcap, Bool.false_eq_true, if_neg, not_false_eq_true]
    exact h3

/-- C7 witness: the direct-parse-first conjunct at a concrete response. -/
theorem C7_extractJSON_witness :
    safeParseJSON "[1,2]" = some (JsonVal.arr [JsonVal.num 1, JsonVal.num 2]) :=
  C7_extractJSON.1 "[1,2]" (JsonVal.arr [JsonVal.num 1, JsonVal.num 2]) rfl
